import Mathlib

/-!
Shallow embedding of the core algorithms of the SLURM batch executor plugin:
partition fit scoring and selection (partitions.py), CPU and GPU requirement
resolution, time-string parsing (utils.py), and the job status reconciliation
loop (check_active_jobs in the executor module).  Python floats are modelled as
exact rationals, optional or absent values as Option, raised exceptions as
Except, and Python strings as Lean strings (operated on as character lists to
mirror the Python str methods used by the source).
-/

deriving instance DecidableEq for Except

namespace SlurmExec

/-- Python truthiness of an optional string: None and the empty string are falsy. -/
def truthyStr : Option String → Bool
  | none => false
  | some s => s != ""

/-- Python truthiness of an optional list: None and the empty list are falsy. -/
def truthyList : Option (List String) → Bool
  | none => false
  | some l => !l.isEmpty

/-- Python `a or b` over optional strings: keep a when truthy, otherwise b. -/
def pyOrStr (a b : Option String) : Option String :=
  if truthyStr a then a else b

/-- Whitespace recognised by Python str.strip (ASCII subset). -/
def isSpaceChar (c : Char) : Bool :=
  c = ' ' || (9 ≤ c.toNat && c.toNat ≤ 13)

/-- Python str.strip over a character list. -/
def pyStrip (cs : List Char) : List Char :=
  ((cs.dropWhile isSpaceChar).reverse.dropWhile isSpaceChar).reverse

/-- Python str.split with a one-character separator: keeps empty pieces. -/
def pySplit (sep : Char) : List Char → List (List Char)
  | [] => [[]]
  | c :: rest =>
    if c = sep then [] :: pySplit sep rest
    else
      match pySplit sep rest with
      | [] => [[c]]
      | piece :: pieces => (c :: piece) :: pieces

/-- Substring test, modelling the Python `in` operator on strings. -/
def hasSub (pat : List Char) : List Char → Bool
  | [] => pat.isEmpty
  | c :: rest => pat.isPrefixOf (c :: rest) || hasSub pat rest

/-- Python str.startswith over character lists. -/
def pyStartsWith (pat s : List Char) : Bool := pat.isPrefixOf s

/-- Decimal digit test. -/
def isDigitChar (c : Char) : Bool := '0' ≤ c && c ≤ '9'

/-- Numeric value of a list of decimal digits. -/
def digitsVal (cs : List Char) : ℕ :=
  cs.foldl (fun acc c => 10 * acc + (c.toNat - '0'.toNat)) 0

/-- Model of the Python int(str) constructor: strip whitespace, then an
optional sign followed by a nonempty run of decimal digits; anything else
raises ValueError (modelled as none). -/
def pyIntChars (cs : List Char) : Option ℤ :=
  match pyStrip cs with
  | '+' :: rest =>
    if !rest.isEmpty && rest.all isDigitChar then some (digitsVal rest) else none
  | '-' :: rest =>
    if !rest.isEmpty && rest.all isDigitChar then some (-(digitsVal rest : ℤ)) else none
  | rest =>
    if !rest.isEmpty && rest.all isDigitChar then some (digitsVal rest) else none

/-- The typed view of the resources of a job, as read by the scorer through
job.resources.get and job.threads.  Absent resources are none; the spec
ResourceRequest domain is typed, so the Python branches coercing string-typed
resource values lie outside this domain. -/
structure Job where
  threads : Option ℤ := some 1
  resources_threads : Option ℤ := none
  mem_mb : Option ℚ := none
  mem_mb_per_cpu : Option ℚ := none
  runtime : Option ℚ := none
  nodes : Option ℚ := none
  tasks : Option ℚ := none
  tasks_per_node : Option ℚ := none
  mpi_tasks : Option ℚ := none
  cpus_per_task : Option ℤ := none
  cpus_per_gpu : Option ℤ := none
  gpu : ℤ := 0
  gres : String := ""
  gpu_model : Option String := none
  mpi : Bool := false
  constraint : Option String := none
  slurm_cluster : Option String := none
  cluster : Option String := none
  clusters : Option String := none
deriving DecidableEq, Repr

/-- Resource limits of a SLURM partition (partitions.py, class PartitionLimits).
A numeric limit of none models the float inf default (unbounded); max_gpu
defaults to 0 as in the source. -/
structure PartitionLimits where
  max_runtime : Option ℚ := none
  max_mem_mb : Option ℚ := none
  max_mem_mb_per_cpu : Option ℚ := none
  max_cpus_per_task : Option ℚ := none
  max_threads : Option ℚ := none
  max_nodes : Option ℚ := none
  max_tasks : Option ℚ := none
  max_tasks_per_node : Option ℚ := none
  max_gpu : ℤ := 0
  available_gpu_models : Option (List String) := none
  max_cpus_per_gpu : Option ℚ := none
  supports_mpi : Bool := true
  max_mpi_tasks : Option ℚ := none
  available_constraints : Option (List String) := none
deriving DecidableEq, Repr

/-- A SLURM partition (partitions.py, class Partition). -/
structure Partition where
  name : String
  limits : PartitionLimits
  partition_cluster : Option String := none
deriving DecidableEq, Repr

/-- Embedding of get_effective_threads (partitions.py): job.threads, falling
back to resources threads when job.threads is 1 or unset, clamped to at
least 1. -/
def get_effective_threads (j : Job) : ℤ :=
  match
    (if j.threads = some 1 ∨ j.threads = none then
      match j.resources_threads with
      | some rt => if rt > 1 then some rt else j.threads
      | none => j.threads
    else j.threads) with
  | none => 1
  | some t => if t < 1 then 1 else t

/-- The second component returned by get_job_cpu_requirement: the Python
strings "task", "gpu" and "none". -/
inductive CpuKind
  | task
  | gpu
  | noneKind
deriving DecidableEq, Repr

/-- Python test `"gpu" in gres`. -/
def gresHasGpu (g : String) : Bool := hasSub "gpu".toList g.toList

/-- Embedding of get_job_cpu_requirement (partitions.py): explicit
cpus_per_task wins (negative raises WorkflowError, zero is raised to 1);
otherwise a GPU job with cpus_per_gpu uses that; otherwise the effective
thread count. -/
def get_job_cpu_requirement (j : Job) : Except String (ℤ × CpuKind) :=
  let hasGpu := (j.gpu != 0) || gresHasGpu j.gres
  match j.cpus_per_task with
  | some c =>
    if c < 0 then .error "cpus_per_task cannot be negative"
    else .ok (max 1 c, .task)
  | none =>
    if hasGpu then
      match j.cpus_per_gpu with
      | some cg => if cg ≤ 0 then .ok (0, .noneKind) else .ok (cg, .gpu)
      | none => .ok (get_effective_threads j, .task)
    else .ok (get_effective_threads j, .task)

/-- Embedding of parse_gpu_requirements (partitions.py): the gpu resource and a
gres gpu spec are mutually exclusive; the gres string is parsed as
gpu:[count] or gpu:[model]:[count]. -/
def parse_gpu_requirements (j : Job) : Except String (ℤ × Option String) :=
  if gresHasGpu j.gres && (j.gpu != 0) then
    .error "GPU resource specified in both gpu and gres"
  else if j.gpu != 0 then
    .ok (j.gpu, j.gpu_model)
  else if gresHasGpu j.gres then
    let gpuParts :=
      (pySplit ',' j.gres.toList).filter (fun part => pyStartsWith "gpu".toList (pyStrip part))
    match gpuParts with
    | [] => .ok (0, none)
    | part :: _ =>
      match pySplit ':' (pyStrip part) with
      | [_, b] =>
        match pyIntChars b with
        | some n => .ok (n, none)
        | none => .error "ValueError in int conversion of gres count"
      | [_, b, c] =>
        match pyIntChars c with
        | some n => .ok (n, some (String.mk b))
        | none => .error "ValueError in int conversion of gres count"
      | _ => .ok (0, none)
  else .ok (0, none)

/-- One numeric dimension of score_job_fit: a positive requirement r against an
optional limit; none result means ineligible (requirement exceeds a finite
limit), otherwise the score contribution of this dimension (0 for an
unbounded limit or an unrequested value). -/
def dimCheck (r : ℚ) (lim : Option ℚ) : Option ℚ :=
  if r > 0 then
    match lim with
    | some l => if r > l then none else some (r / l)
    | none => some 0
  else some 0

/-- The numerical_resources loop of score_job_fit over its seven dimensions, in
source order; none means some dimension rendered the partition ineligible,
otherwise the total contribution of these dimensions. -/
def numericalContrib (p : Partition) (j : Job) : Option ℚ :=
  (dimCheck (j.mem_mb.getD 0) p.limits.max_mem_mb).bind fun a =>
  (dimCheck (j.mem_mb_per_cpu.getD 0) p.limits.max_mem_mb_per_cpu).bind fun b =>
  (dimCheck (j.runtime.getD 0) p.limits.max_runtime).bind fun c =>
  (dimCheck (j.nodes.getD 0) p.limits.max_nodes).bind fun d =>
  (dimCheck (j.tasks.getD 0) p.limits.max_tasks).bind fun e =>
  (dimCheck (j.tasks_per_node.getD 0) p.limits.max_tasks_per_node).bind fun f =>
  (dimCheck (j.mpi_tasks.getD 0) p.limits.max_mpi_tasks).map fun g =>
  a + b + c + d + e + f + g

/-- The thread block of score_job_fit: the effective thread count checked
against max_threads. -/
def threadsContrib (p : Partition) (j : Job) : Option ℚ :=
  dimCheck (get_effective_threads j : ℚ) p.limits.max_threads

/-- The cpu block of score_job_fit: a task-typed cpu count is checked against
max_threads and max_cpus_per_task (contributing to both ratios); a gpu-typed
count against max_cpus_per_gpu. -/
def cpuContrib (p : Partition) (cpuCount : ℤ) (kind : CpuKind) : Option ℚ :=
  if kind = .task ∧ cpuCount > 0 then
    (dimCheck (cpuCount : ℚ) p.limits.max_threads).bind fun a =>
    (dimCheck (cpuCount : ℚ) p.limits.max_cpus_per_task).map fun b => a + b
  else if kind = .gpu ∧ cpuCount > 0 then
    dimCheck (cpuCount : ℚ) p.limits.max_cpus_per_gpu
  else some 0

/-- The gpu block of score_job_fit: a positive gpu count needs a nonzero
max_gpu at least as large, contributes count divided by max_gpu, and a
requested model must be member of a truthy available_gpu_models list. -/
def gpuContrib (p : Partition) (gpuCount : ℤ) (gpuModel : Option String) : Option ℚ :=
  if gpuCount > 0 then
    if p.limits.max_gpu = 0 ∨ gpuCount > p.limits.max_gpu then none
    else if truthyStr gpuModel && truthyList p.limits.available_gpu_models then
      if (p.limits.available_gpu_models.getD []).contains (gpuModel.getD "") then
        some ((gpuCount : ℚ) / (p.limits.max_gpu : ℚ))
      else none
    else some ((gpuCount : ℚ) / (p.limits.max_gpu : ℚ))
  else some 0

/-- The strict cluster eligibility check at the top of score_job_fit: the job
cluster hint is the first truthy of slurm_cluster, cluster, clusters. -/
def clusterOk (p : Partition) (j : Job) : Bool :=
  match pyOrStr (pyOrStr j.slurm_cluster j.cluster) j.clusters with
  | some c => p.partition_cluster == some c
  | none => p.partition_cluster == none

/-- The constraint block of score_job_fit: with a truthy constraint string and
a truthy available_constraints list, every comma-separated stripped nonempty
requested constraint must be available. -/
def constraintsOk (p : Partition) (j : Job) : Bool :=
  match j.constraint with
  | none => true
  | some c =>
    if c != "" && truthyList p.limits.available_constraints then
      (((pySplit ',' c.toList).map pyStrip).filter (fun x => !x.isEmpty)).all
        (fun r => (p.limits.available_constraints.getD []).contains (String.mk r))
    else true

/-- Embedding of Partition.score_job_fit (partitions.py): the sequential
blocks of the source in order (cluster check, numerical resources loop,
thread check, cpu requirement, gpu requirement, mpi, constraints), with the
running score accumulator expressed as the sum of the per-block
contributions; ok none is the Python return None (ineligible), error is a
raised WorkflowError or ValueError. -/
def Partition.score_job_fit (p : Partition) (j : Job) : Except String (Option ℚ) :=
  if !clusterOk p j then .ok none
  else
    match numericalContrib p j with
    | none => .ok none
    | some s1 =>
      match threadsContrib p j with
      | none => .ok none
      | some s2 =>
        match get_job_cpu_requirement j with
        | .error e => .error e
        | .ok (cpuCount, cpuKind) =>
          match cpuContrib p cpuCount cpuKind with
          | none => .ok none
          | some s3 =>
            match parse_gpu_requirements j with
            | .error e => .error e
            | .ok (gpuCount, gpuModel) =>
              match gpuContrib p gpuCount gpuModel with
              | none => .ok none
              | some s4 =>
                if j.mpi && !p.limits.supports_mpi then .ok none
                else if !constraintsOk p j then .ok none
                else .ok (some (s1 + s2 + s3 + s4))

/-- The filtering loop of get_best_partition: partitions whose score is not
None and strictly positive, paired with their scores, in catalog order. -/
def scored_partitions (candidates : List Partition) (j : Job) :
    Except String (List (Partition × ℚ)) :=
  match candidates with
  | [] => .ok []
  | p :: rest =>
    match p.score_job_fit j with
    | .error e => .error e
    | .ok s =>
      match scored_partitions rest j with
      | .error e => .error e
      | .ok tail =>
        match s with
        | some sc => if sc > 0 then .ok ((p, sc) :: tail) else .ok tail
        | none => .ok tail

/-- Model of the Python builtin max with a score key over a nonempty list:
returns the first element attaining the maximal score (a later element
replaces the current best only when strictly greater). -/
def pyMaxByScore : List (Partition × ℚ) → Option (Partition × ℚ)
  | [] => none
  | x :: rest =>
    match pyMaxByScore rest with
    | none => some x
    | some m => some (if m.2 > x.2 then m else x)

/-- Embedding of get_best_partition (partitions.py): the name of the best
scored partition, or none when no partition scored strictly positive. -/
def get_best_partition (candidates : List Partition) (j : Job) :
    Except String (Option String) :=
  match scored_partitions candidates j with
  | .error e => .error e
  | .ok scored =>
    match pyMaxByScore scored with
    | some best => .ok (some best.1.name)
    | none => .ok none

/-- The utilization ratio of one score dimension: request over limit for a
positive request against a finite limit, otherwise 0. -/
def ratioQ (r : ℚ) (lim : Option ℚ) : ℚ :=
  if r > 0 then
    match lim with
    | some l => r / l
    | none => 0
  else 0

/-- Closed form of the score that score_job_fit accumulates for an eligible
partition: the seven numerical dimensions, the effective thread count against
max_threads, the resolved cpu requirement (against both max_threads and
max_cpus_per_task in task mode, against max_cpus_per_gpu in gpu mode), and
the gpu count against max_gpu. -/
def codeFitScore (p : Partition) (j : Job) : ℚ :=
  ratioQ (j.mem_mb.getD 0) p.limits.max_mem_mb
  + ratioQ (j.mem_mb_per_cpu.getD 0) p.limits.max_mem_mb_per_cpu
  + ratioQ (j.runtime.getD 0) p.limits.max_runtime
  + ratioQ (j.nodes.getD 0) p.limits.max_nodes
  + ratioQ (j.tasks.getD 0) p.limits.max_tasks
  + ratioQ (j.tasks_per_node.getD 0) p.limits.max_tasks_per_node
  + ratioQ (j.mpi_tasks.getD 0) p.limits.max_mpi_tasks
  + ratioQ (get_effective_threads j : ℚ) p.limits.max_threads
  + (match get_job_cpu_requirement j with
     | .ok (cc, .task) =>
       ratioQ (cc : ℚ) p.limits.max_threads + ratioQ (cc : ℚ) p.limits.max_cpus_per_task
     | .ok (cc, .gpu) => ratioQ (cc : ℚ) p.limits.max_cpus_per_gpu
     | _ => 0)
  + (match parse_gpu_requirements j with
     | .ok (gc, _) => if gc > 0 then (gc : ℚ) / (p.limits.max_gpu : ℚ) else 0
     | .error _ => 0)

/-- The fit score as the words of the spec describe it, for comparison in the
refinement claim C3: the sum, over every resource dimension where the
partition maximum is finite and the request value is positive, of request
over maximum, each dimension contributing exactly once (the cpu dimension per
the two-mode interpretation: an explicit cpus_per_task counts against
max_cpus_per_task, a gpu-job cpus_per_gpu against max_cpus_per_gpu, and the
thread fallback adds nothing beyond the thread dimension itself). -/
def specClaimedFitScore (p : Partition) (j : Job) : ℚ :=
  ratioQ (j.mem_mb.getD 0) p.limits.max_mem_mb
  + ratioQ (j.mem_mb_per_cpu.getD 0) p.limits.max_mem_mb_per_cpu
  + ratioQ (j.runtime.getD 0) p.limits.max_runtime
  + ratioQ (j.nodes.getD 0) p.limits.max_nodes
  + ratioQ (j.tasks.getD 0) p.limits.max_tasks
  + ratioQ (j.tasks_per_node.getD 0) p.limits.max_tasks_per_node
  + ratioQ (j.mpi_tasks.getD 0) p.limits.max_mpi_tasks
  + ratioQ (get_effective_threads j : ℚ) p.limits.max_threads
  + (match j.cpus_per_task with
     | some c => ratioQ (c : ℚ) p.limits.max_cpus_per_task
     | none =>
       match j.cpus_per_gpu with
       | some cg =>
         if (j.gpu != 0) || gresHasGpu j.gres then ratioQ (cg : ℚ) p.limits.max_cpus_per_gpu
         else 0
       | none => 0)
  + (match parse_gpu_requirements j with
     | .ok (gc, _) => if gc > 0 ∧ p.limits.max_gpu ≠ 0 then (gc : ℚ) / (p.limits.max_gpu : ℚ) else 0
     | .error _ => 0)

/-- Order on optional numeric limits, none modelling the float inf top
element: a limit increases when it grows or becomes unbounded. -/
def oleQ : Option ℚ → Option ℚ → Prop
  | some a, some b => a ≤ b
  | some _, none => True
  | none, some _ => False
  | none, none => True

/-- Pointwise increase of every numeric partition limit, with the non-numeric
fields held fixed. -/
structure LimitsLE (l l' : PartitionLimits) : Prop where
  h_runtime : oleQ l.max_runtime l'.max_runtime
  h_mem : oleQ l.max_mem_mb l'.max_mem_mb
  h_mem_per_cpu : oleQ l.max_mem_mb_per_cpu l'.max_mem_mb_per_cpu
  h_cpt : oleQ l.max_cpus_per_task l'.max_cpus_per_task
  h_thr : oleQ l.max_threads l'.max_threads
  h_nodes : oleQ l.max_nodes l'.max_nodes
  h_tasks : oleQ l.max_tasks l'.max_tasks
  h_tpn : oleQ l.max_tasks_per_node l'.max_tasks_per_node
  h_gpu : l.max_gpu ≤ l'.max_gpu
  h_cpg : oleQ l.max_cpus_per_gpu l'.max_cpus_per_gpu
  h_mpi_tasks : oleQ l.max_mpi_tasks l'.max_mpi_tasks
  h_models : l.available_gpu_models = l'.available_gpu_models
  h_mpi : l.supports_mpi = l'.supports_mpi
  h_constraints : l.available_constraints = l'.available_constraints

/-- Increase of exactly one numeric partition limit, all other fields fixed. -/
def singleLimitIncrease (l l' : PartitionLimits) : Prop :=
  (∃ v, l' = { l with max_runtime := v } ∧ oleQ l.max_runtime v)
  ∨ (∃ v, l' = { l with max_mem_mb := v } ∧ oleQ l.max_mem_mb v)
  ∨ (∃ v, l' = { l with max_mem_mb_per_cpu := v } ∧ oleQ l.max_mem_mb_per_cpu v)
  ∨ (∃ v, l' = { l with max_cpus_per_task := v } ∧ oleQ l.max_cpus_per_task v)
  ∨ (∃ v, l' = { l with max_threads := v } ∧ oleQ l.max_threads v)
  ∨ (∃ v, l' = { l with max_nodes := v } ∧ oleQ l.max_nodes v)
  ∨ (∃ v, l' = { l with max_tasks := v } ∧ oleQ l.max_tasks v)
  ∨ (∃ v, l' = { l with max_tasks_per_node := v } ∧ oleQ l.max_tasks_per_node v)
  ∨ (∃ v, l' = { l with max_gpu := v } ∧ l.max_gpu ≤ v)
  ∨ (∃ v, l' = { l with max_cpus_per_gpu := v } ∧ oleQ l.max_cpus_per_gpu v)
  ∨ (∃ v, l' = { l with max_mpi_tasks := v } ∧ oleQ l.max_mpi_tasks v)

/-- Concrete partition with every limit unbounded, used against claim C1. -/
def cexC1P : Partition := { name := "open", limits := {} }

/-- Concrete default job (no resources, one thread), used against claim C1. -/
def cexC1J : Job := {}

/-- Concrete partition with max_threads 10, used against claim C3. -/
def cexC3P : Partition := { name := "threaded", limits := { max_threads := some 10 } }

/-- Concrete job requesting 4 threads and nothing else, used against claim C3. -/
def cexC3J : Job := { threads := some 4 }

/-- Concrete partition with max_threads 4 and max_gpu 4, used against claim C4. -/
def cexC4P : Partition := { name := "gpuq", limits := { max_threads := some 4, max_gpu := 4 } }

/-- Concrete gpu job with cpus_per_gpu 2 and 50 threads, used against claim C4. -/
def cexC4J : Job := { threads := some 50, gpu := 1, cpus_per_gpu := some 2 }

/-- The partition of cexC4P with the max_threads limit removed, showing that
the thread check alone excluded the job there. -/
def cexC4Popen : Partition := { name := "gpuq", limits := { max_gpu := 4 } }

/-- A status snapshot: the parsed output of one status query, an association
from external job id to raw status token (StatusSnapshot of the spec). -/
abbrev Snapshot := List (String × String)

/-- Status of one job id in a snapshot. -/
def lookupStatus (snap : Snapshot) (id : String) : Option String :=
  (snap.find? (fun kv => kv.1 = id)).map (fun kv => kv.2)

/-- The fail_stati tuple of check_active_jobs. -/
def failStati : List String :=
  ["BOOT_FAIL", "CANCELLED", "DEADLINE", "FAILED", "NODE_FAIL",
   "OUT_OF_MEMORY", "TIMEOUT", "ERROR"]

/-- The loop state of the status-attempt loop of check_active_jobs: the
snapshot variable as overwritten by the most recent executed attempt (none
after a failed attempt), the ids ever seen across attempts, and the missing
set (ever seen minus seen this attempt). -/
structure LoopState where
  statusOfJobs : Option Snapshot
  everSeen : List String
  missing : List String
deriving DecidableEq, Repr

/-- Initial state of the attempt loop. -/
def initLoopState : LoopState := ⟨none, [], []⟩

/-- One iteration of the attempt loop of check_active_jobs: a failed query
(none) overwrites the snapshot and continues; a successful query intersects
the snapshot ids with the active ids, unions them into the ever-seen set,
recomputes missing = ever-seen minus seen-this-attempt, and signals a break
when missing is empty. -/
def attemptStep (activeIds : List String) (st : LoopState) (att : Option Snapshot) :
    LoopState × Bool :=
  match att with
  | none => ({ st with statusOfJobs := none }, false)
  | some snap =>
    let seen := activeIds.filter (fun id => (lookupStatus snap id).isSome)
    let everSeen := st.everSeen ++ seen.filter (fun id => !st.everSeen.contains id)
    let missing := everSeen.filter (fun id => !seen.contains id)
    (⟨some snap, everSeen, missing⟩, missing.isEmpty)

/-- The attempt loop of check_active_jobs over the list of query results of
the up to N attempts, breaking early when an executed attempt reaches full
coverage. -/
def runAttempts (activeIds : List String) : List (Option Snapshot) → LoopState → LoopState
  | [], st => st
  | att :: rest, st =>
    let step := attemptStep activeIds st att
    if step.2 then step.1 else runAttempts activeIds rest step.1

/-- The per-cycle classification outcome of check_active_jobs: ids reported
successful, ids reported failed, ids re-yielded as still active, whether any
job finished, the preemption-warning flag after the cycle, and how many
preemption warnings the cycle surfaced. -/
structure ClassifyResult where
  successes : List String
  failures : List String
  yielded : List String
  anyFinished : Bool
  warned : Bool
  warnCount : ℕ
deriving DecidableEq, Repr

/-- The classification loop of check_active_jobs over the active ids against
the last obtained snapshot, threading the process-lifetime preemption
warning flag left to right: COMPLETED and UNKNOWN report success and count
as finished, PREEMPTED is re-yielded (warning only when the flag is still
unset), a fail status reports failure, anything else (or an id absent from
the snapshot) is re-yielded. -/
def classifyJobs (snap : Snapshot) (flag : Bool) : List String → ClassifyResult
  | [] => ⟨[], [], [], false, flag, 0⟩
  | id :: rest =>
    match lookupStatus snap id with
    | none =>
      let r := classifyJobs snap flag rest
      { r with yielded := id :: r.yielded }
    | some status =>
      if status = "COMPLETED" then
        let r := classifyJobs snap flag rest
        { r with successes := id :: r.successes, anyFinished := true }
      else if status = "PREEMPTED" ∧ flag = false then
        let r := classifyJobs snap true rest
        { r with yielded := id :: r.yielded, warnCount := r.warnCount + 1 }
      else if status = "UNKNOWN" then
        let r := classifyJobs snap flag rest
        { r with successes := id :: r.successes, anyFinished := true }
      else if failStati.contains status then
        let r := classifyJobs snap flag rest
        { r with failures := id :: r.failures }
      else
        let r := classifyJobs snap flag rest
        { r with yielded := id :: r.yielded }

/-- The inputs of one reconciliation cycle: the active job ids and the query
result of each status attempt (none models a query with no output). -/
structure CycleInput where
  activeIds : List String
  attempts : List (Option Snapshot)
deriving DecidableEq, Repr

/-- The observable outcome of one call of check_active_jobs: whether the
status backend was queried, the classification result when the last executed
attempt produced a snapshot, the ids of the aggregated missing warning, the
preemption flag after the cycle, and the next inter-cycle wait. -/
structure CycleOutcome where
  queried : Bool
  result : Option ClassifyResult
  missingWarning : List String
  flagAfter : Bool
  nextWait : ℕ
deriving DecidableEq, Repr

/-- The cap of 180 seconds on the sleeping time between status queries. -/
def maxSleepTime : ℕ := 180

/-- Embedding of one check_active_jobs cycle: an empty active set skips
querying and resets the wait to the initial interval; otherwise the attempt
loop runs, the missing set (if any) is surfaced as a warning, and when the
last executed attempt obtained a snapshot the active jobs are classified and
the wait adapts (reset on any finished job, otherwise increased by 10 and
capped at 180). -/
def runCycle (ci : CycleInput) (flag : Bool) (current initial : ℕ) : CycleOutcome :=
  if ci.activeIds.isEmpty then ⟨false, none, [], flag, initial⟩
  else
    match (runAttempts ci.activeIds ci.attempts initLoopState).statusOfJobs with
    | none =>
      ⟨true, none, (runAttempts ci.activeIds ci.attempts initLoopState).missing, flag, current⟩
    | some snap =>
      ⟨true, some (classifyJobs snap flag ci.activeIds),
        (runAttempts ci.activeIds ci.attempts initLoopState).missing,
        (classifyJobs snap flag ci.activeIds).warned,
        if (classifyJobs snap flag ci.activeIds).anyFinished then initial
        else min (current + 10) maxSleepTime⟩

/-- A whole run: the reconciliation cycles in sequence, threading the
preemption flag and the adaptive wait. -/
def runCycles (initial : ℕ) : List CycleInput → Bool → ℕ → List CycleOutcome
  | [], _, _ => []
  | ci :: rest, flag, current =>
    let o := runCycle ci flag current initial
    o :: runCycles initial rest o.flagAfter o.nextWait

/-- Warnings surfaced by one cycle outcome. -/
def warnsOf (o : CycleOutcome) : ℕ :=
  match o.result with
  | some r => r.warnCount
  | none => 0

/-- Whether a cycle input leads to an observed PREEMPTED status: the active
set is nonempty, the attempt loop ends with an obtained snapshot, and some
active job carries status PREEMPTED there. -/
def obsPreempted (ci : CycleInput) : Bool :=
  !ci.activeIds.isEmpty &&
    (match (runAttempts ci.activeIds ci.attempts initLoopState).statusOfJobs with
     | some snap =>
       decide (∃ x ∈ ci.activeIds, lookupStatus snap x = some "PREEMPTED")
     | none => false)

/-- Total number of preemption warnings surfaced over a run. -/
def warnTotal (outs : List CycleOutcome) : ℕ := (outs.map warnsOf).sum

/-- The active job ids of the C2 scenario: job x and one other job y. -/
def cexC2active : List String := ["x", "y"]

/-- The five status attempts of the C2 scenario: job x absent from the
snapshots of attempts 1 and 2, present with terminal status COMPLETED from
attempt 3 on; job y present in every snapshot. -/
def cexC2snaps : List (Option Snapshot) :=
  [some [("y", "RUNNING")], some [("y", "RUNNING")],
   some [("x", "COMPLETED"), ("y", "RUNNING")],
   some [("x", "COMPLETED"), ("y", "RUNNING")],
   some [("x", "COMPLETED"), ("y", "RUNNING")]]

/-- The C2 scenario as a cycle input. -/
def cexC2input : CycleInput := ⟨cexC2active, cexC2snaps⟩

/-- A cycle input observing one PREEMPTED job, used for claim C7. -/
def cexC7input : CycleInput := ⟨["p1"], [some [("p1", "PREEMPTED")]]⟩

/-- Embedding of round_half_up (utils.py): floor of the value plus one half. -/
def round_half_up (q : ℚ) : ℤ := Int.floor (q + 1 / 2)

/-- Python str.lower on a character (ASCII letters). -/
def pyLowerChar (c : Char) : Char :=
  if 'A' ≤ c ∧ c ≤ 'Z' then Char.ofNat (c.toNat + 32) else c

/-- Value of a decimal fraction part: digits after the point. -/
def fracVal (cs : List Char) : ℚ := (digitsVal cs : ℚ) / (10 : ℚ) ^ cs.length

/-- An optionally signed nonempty digit run, as the exponent value of the
Python float grammar. -/
def parseExpDigits : List Char → Option ℤ
  | '+' :: ds =>
    if !ds.isEmpty && ds.all isDigitChar then some (digitsVal ds) else none
  | '-' :: ds =>
    if !ds.isEmpty && ds.all isDigitChar then some (-(digitsVal ds : ℤ)) else none
  | ds =>
    if !ds.isEmpty && ds.all isDigitChar then some (digitsVal ds) else none

/-- Exponent suffix of the Python float grammar: empty, or e or E followed by
an optionally signed nonempty digit run. -/
def parseExpPart : List Char → Option ℤ
  | [] => some 0
  | c :: rest => if c = 'e' ∨ c = 'E' then parseExpDigits rest else none

/-- The unsigned part of the Python float grammar: digits with an optional
point and fraction, then an optional exponent. -/
def pyFloatCore (sign : ℚ) (cs : List Char) : Option ℚ :=
  match cs.dropWhile isDigitChar with
  | '.' :: rest2 =>
    if (cs.takeWhile isDigitChar).isEmpty && (rest2.takeWhile isDigitChar).isEmpty then none
    else
      match parseExpPart (rest2.dropWhile isDigitChar) with
      | some e =>
        some (sign * ((digitsVal (cs.takeWhile isDigitChar) : ℚ)
          + fracVal (rest2.takeWhile isDigitChar)) * (10 : ℚ) ^ e)
      | none => none
  | rest1 =>
    if (cs.takeWhile isDigitChar).isEmpty then none
    else
      match parseExpPart rest1 with
      | some e => some (sign * (digitsVal (cs.takeWhile isDigitChar) : ℚ) * (10 : ℚ) ^ e)
      | none => none

/-- Model of the Python float(str) constructor on its decimal core: optional
sign, digits with an optional point and fraction, optional exponent; anything
else (including the named values inf and nan, which no time string uses)
raises ValueError, modelled as none. -/
def pyFloatChars (cs0 : List Char) : Option ℚ :=
  match cs0 with
  | '+' :: rest => pyFloatCore 1 rest
  | '-' :: rest => pyFloatCore (-1) rest
  | rest => pyFloatCore 1 rest

/-- The ten decimal digit characters. -/
def digitChars : List Char := ['0', '1', '2', '3', '4', '5', '6', '7', '8', '9']

/-- The SLURM colon-and-dash branch of parse_time_to_minutes.  An error result
carries the time string as mutated so far (the source reassigns time_str to
the part after the dash before the colon fields are converted, and a
ValueError then falls through to the unit-notation parser on that mutated
string). -/
def slurmStage (cs : List Char) : Except (List Char) ℚ :=
  let step1 : Except (List Char) (ℤ × List Char) :=
    if cs.contains '-' then
      match pySplit '-' cs with
      | [a, b] =>
        match pyIntChars a with
        | some d => .ok (d, b)
        | none => .error cs
      | _ => .error cs
    else .ok (0, cs)
  match step1 with
  | .error l => .error l
  | .ok (days, t) =>
    match pySplit ':' t with
    | [a] =>
      match pyIntChars a with
      | some v =>
        if days > 0 then .ok ((days : ℚ) * 24 * 60 + (v : ℚ) * 60)
        else .ok ((days : ℚ) * 24 * 60 + (v : ℚ))
      | none => .error t
    | [a, b] =>
      match pyIntChars a, pyIntChars b with
      | some h, some m => .ok ((days : ℚ) * 24 * 60 + (h : ℚ) * 60 + (m : ℚ))
      | _, _ => .error t
    | [a, b, c] =>
      match pyIntChars a, pyIntChars b, pyIntChars c with
      | some h, some m, some s =>
        .ok ((days : ℚ) * 24 * 60 + (h : ℚ) * 60 + (m : ℚ) + (s : ℚ) / 60)
      | _, _, _ => .error t
    | _ => .error t

/-- One match attempt of the unit-notation pattern at the head of the string:
digits, an optional point with digits, optional whitespace, then a unit
letter d, h, m or s; returns the value, the unit and the unconsumed rest. -/
def tryUnitMatch (cs : List Char) : Option (ℚ × Char × List Char) :=
  let ds := cs.takeWhile isDigitChar
  let rest := cs.dropWhile isDigitChar
  if ds.isEmpty then none
  else
    let valueRest : ℚ × List Char :=
      match rest with
      | '.' :: r2 =>
        let fs := r2.takeWhile isDigitChar
        if fs.isEmpty then ((digitsVal ds : ℚ), rest)
        else ((digitsVal ds : ℚ) + fracVal fs, r2.dropWhile isDigitChar)
      | _ => ((digitsVal ds : ℚ), rest)
    match valueRest.2.dropWhile isSpaceChar with
    | u :: tailRest =>
      if u = 'd' ∨ u = 'h' ∨ u = 'm' ∨ u = 's' then some (valueRest.1, u, tailRest)
      else none
    | [] => none

/-- Left-to-right non-overlapping scan of the unit-notation pattern, as
re.findall performs it; the fuel argument (instantiated with the string
length) only serves termination, every match consumes at least two
characters. -/
def findMatchesAux : ℕ → List Char → List (ℚ × Char)
  | 0, _ => []
  | _ + 1, [] => []
  | fuel + 1, c :: rest =>
    match tryUnitMatch (c :: rest) with
    | some (v, u, remaining) => (v, u) :: findMatchesAux fuel remaining
    | none => findMatchesAux fuel rest

/-- Minute value of one unit-notation match. -/
def unitMinutes (v : ℚ) (u : Char) : ℚ :=
  if u = 'd' then v * 24 * 60
  else if u = 'h' then v * 60
  else if u = 'm' then v
  else if u = 's' then v / 60
  else 0

/-- Embedding of parse_time_to_minutes (utils.py) on string input: strip, try
a plain number, then the SLURM colon-and-dash formats, then Snakemake unit
notation; an unparseable string raises WorkflowError. -/
def parse_time_to_minutes (s : String) : Except String ℤ :=
  let cs := pyStrip s.toList
  match pyFloatChars cs with
  | some q => .ok (round_half_up q)
  | none =>
    let slurmRes : Except (List Char) ℚ :=
      if cs.contains '-' || cs.contains ':' then slurmStage cs else .error cs
    match slurmRes with
    | .ok total => .ok (round_half_up total)
    | .error leftover =>
      let ms := findMatchesAux leftover.length (leftover.map pyLowerChar)
      if ms.isEmpty then .error "Invalid time format"
      else .ok (round_half_up (ms.foldl (fun acc m => acc + unitMinutes m.1 m.2) 0))

/-! ## Helper lemmas about the scorer -/

theorem get_effective_threads_pos (j : Job) : 0 < get_effective_threads j := by
  unfold get_effective_threads
  split
  · omega
  next t => split <;> omega

theorem dimCheck_eq_none_iff (r : ℚ) (lim : Option ℚ) :
    dimCheck r lim = none ↔ 0 < r ∧ ∃ l, lim = some l ∧ l < r := by
  cases lim with
  | none => simp [dimCheck]
  | some l =>
    by_cases hr : r > 0
    · by_cases hl : r > l
      · simp [dimCheck, hr, hl]
      · simp [dimCheck, hr, hl]
    · simp [dimCheck, hr]

theorem dimCheck_val (r : ℚ) (lim : Option ℚ) (q : ℚ) (h : dimCheck r lim = some q) :
    q = ratioQ r lim := by
  cases lim with
  | none =>
    by_cases hr : r > 0 <;> simp [dimCheck, hr] at h <;> simp [ratioQ, hr, h.symm]
  | some l =>
    by_cases hr : r > 0
    · by_cases hl : r > l
      · simp [dimCheck, hr, hl] at h
      · simp [dimCheck, hr, hl] at h
        simp [ratioQ, hr, h.symm]
    · simp [dimCheck, hr] at h
      simp [ratioQ, hr, h.symm]

theorem oleQ_refl (a : Option ℚ) : oleQ a a := by
  cases a <;> simp [oleQ]

theorem dimCheck_mono (r : ℚ) (lim lim' : Option ℚ) (hle : oleQ lim lim')
    (h : dimCheck r lim ≠ none) : dimCheck r lim' ≠ none := by
  simp only [ne_eq, dimCheck_eq_none_iff] at h ⊢
  rintro ⟨hr, l', hlim', hlt⟩
  apply h
  refine ⟨hr, ?_⟩
  cases lim with
  | none => cases lim' with
    | none => simp at hlim'
    | some b => exact absurd hle (by simp [oleQ])
  | some a =>
    refine ⟨a, rfl, ?_⟩
    cases lim' with
    | none => simp at hlim'
    | some b =>
      injection hlim' with hb
      subst hb
      simp [oleQ] at hle
      linarith

theorem score_fit_eq (p : Partition) (j : Job)
    (hcl : clusterOk p j = true)
    (s1 : ℚ) (h1 : numericalContrib p j = some s1)
    (s2 : ℚ) (h2 : threadsContrib p j = some s2)
    (cc : ℤ) (ck : CpuKind) (hc : get_job_cpu_requirement j = .ok (cc, ck))
    (s3 : ℚ) (h3 : cpuContrib p cc ck = some s3)
    (gc : ℤ) (gm : Option String) (hg : parse_gpu_requirements j = .ok (gc, gm))
    (s4 : ℚ) (h4 : gpuContrib p gc gm = some s4)
    (hm : (j.mpi && !p.limits.supports_mpi) = false)
    (hcon : constraintsOk p j = true) :
    p.score_job_fit j = .ok (some (s1 + s2 + s3 + s4)) := by
  simp [Partition.score_job_fit, hcl, h1, h2, hc, h3, hg, h4, hm, hcon]

theorem score_fit_inv (p : Partition) (j : Job) (s : ℚ)
    (h : p.score_job_fit j = .ok (some s)) :
    clusterOk p j = true ∧
    ∃ s1 s2 cc ck s3 gc gm s4,
      numericalContrib p j = some s1 ∧ threadsContrib p j = some s2 ∧
      get_job_cpu_requirement j = .ok (cc, ck) ∧ cpuContrib p cc ck = some s3 ∧
      parse_gpu_requirements j = .ok (gc, gm) ∧ gpuContrib p gc gm = some s4 ∧
      (j.mpi && !p.limits.supports_mpi) = false ∧ constraintsOk p j = true ∧
      s = s1 + s2 + s3 + s4 := by
  unfold Partition.score_job_fit at h
  split at h
  · simp at h
  next hcl =>
    refine ⟨by simpa using hcl, ?_⟩
    split at h
    · simp at h
    next s1 h1 =>
      split at h
      · simp at h
      next s2 h2 =>
        split at h
        · simp at h
        next cc ck hc =>
          split at h
          · simp at h
          next s3 h3 =>
            split at h
            · simp at h
            next gc gm hg =>
              split at h
              · simp at h
              next s4 h4 =>
                split at h
                · simp at h
                next hm =>
                  split at h
                  · simp at h
                  next hcon =>
                    refine ⟨s1, s2, cc, ck, s3, gc, gm, s4,
                      h1, h2, hc, h3, hg, h4, by simpa using hm, by simpa using hcon, ?_⟩
                    simpa using h.symm

theorem score_fit_none_of_threads (p : Partition) (j : Job) (t : ℚ)
    (ht : p.limits.max_threads = some t)
    (hlt : t < (get_effective_threads j : ℚ)) :
    p.score_job_fit j = .ok none := by
  have hth : threadsContrib p j = none := by
    rw [threadsContrib, dimCheck_eq_none_iff]
    have hpos : (0 : ℚ) < (get_effective_threads j : ℚ) := by
      exact_mod_cast get_effective_threads_pos j
    exact ⟨hpos, t, ht, hlt⟩
  unfold Partition.score_job_fit
  rw [hth]
  split
  · rfl
  · split
    · rfl
    · rfl

/-! ## Claims C10 and C4 -/

/-- Claim C10: for every job where cpus_per_task is explicitly given,
get_job_cpu_requirement raises a WorkflowError exactly when the value is
negative, and otherwise returns a CPU count of max 1 value with kind task;
in particular a requested value of 0 is raised to 1, never passed through. -/
theorem claim_C10 (j : Job) (c : ℤ) (h : j.cpus_per_task = some c) :
    ((∃ e, get_job_cpu_requirement j = .error e) ↔ c < 0) ∧
    (0 ≤ c → get_job_cpu_requirement j = .ok (max 1 c, .task)) ∧
    (c = 0 → get_job_cpu_requirement j = .ok (1, .task)) := by
  by_cases hc : c < 0
  · refine ⟨⟨fun _ => hc, fun _ => ?_⟩, fun hn => absurd hc (not_lt.mpr hn), fun h0 => by omega⟩
    exact ⟨"cpus_per_task cannot be negative", by simp [get_job_cpu_requirement, h, hc]⟩
  · refine ⟨⟨?_, fun hlt => absurd hlt hc⟩, fun _ => by simp [get_job_cpu_requirement, h, hc], ?_⟩
    · rintro ⟨e, he⟩
      simp [get_job_cpu_requirement, h, hc] at he
    · rintro rfl
      simp [get_job_cpu_requirement, h]

/-- Witness for claim C10 at a concrete job requesting cpus_per_task 0. -/
theorem claim_C10_witness :
    get_job_cpu_requirement { cpus_per_task := some 0 } = .ok (1, .task) :=
  (claim_C10 { cpus_per_task := some 0 } 0 rfl).2.2 rfl

/-- Counterexample to claim C4: this job requests one GPU, gives
cpus_per_gpu 2 (within the unbounded max_cpus_per_gpu of the partition, whose
CPU requirement resolves to kind gpu as the claim describes), yet the
partition rules it ineligible, and the same partition without its
max_threads limit accepts it: the job is additionally excluded by its thread
count 50 exceeding max_threads 4, contradicting the claim. -/
theorem claim_C4_counterexample :
    cexC4P.score_job_fit cexC4J = .ok none ∧
    cexC4J.cpus_per_task = none ∧
    ((cexC4J.gpu != 0) || gresHasGpu cexC4J.gres) = true ∧
    cexC4J.cpus_per_gpu = some 2 ∧
    cexC4P.limits.max_cpus_per_gpu = none ∧
    get_job_cpu_requirement cexC4J = .ok (2, .gpu) ∧
    cexC4Popen.score_job_fit cexC4J = .ok (some (1 / 4)) := by
  have het : get_effective_threads cexC4J = 50 := by decide
  have hnone : cexC4P.score_job_fit cexC4J = .ok none := by
    apply score_fit_none_of_threads cexC4P cexC4J 4 (by decide)
    rw [het]
    norm_num
  have hcl : clusterOk cexC4Popen cexC4J = true := by decide
  have h1 : numericalContrib cexC4Popen cexC4J = some 0 := by
    norm_num [numericalContrib, dimCheck, cexC4Popen, cexC4J]
  have h2 : threadsContrib cexC4Popen cexC4J = some 0 := by
    rw [threadsContrib, het]
    norm_num [dimCheck, cexC4Popen]
  have hc : get_job_cpu_requirement cexC4J = .ok (2, .gpu) := by decide
  have h3 : cpuContrib cexC4Popen 2 .gpu = some 0 := by
    norm_num [cpuContrib, dimCheck, cexC4Popen]
  have hg : parse_gpu_requirements cexC4J = .ok (1, none) := by decide
  have h4 : gpuContrib cexC4Popen 1 none = some (1 / 4) := by
    norm_num [gpuContrib, cexC4Popen, truthyStr]
  have hm : (cexC4J.mpi && !cexC4Popen.limits.supports_mpi) = false := by decide
  have hcon : constraintsOk cexC4Popen cexC4J = true := by decide
  have hopen := score_fit_eq cexC4Popen cexC4J hcl 0 h1 0 h2 2 .gpu hc 0 h3 1 none hg
    (1 / 4) h4 hm hcon
  refine ⟨hnone, by decide, by decide, by decide, by decide, hc, ?_⟩
  rw [hopen]
  norm_num

/-- Claim C4 (amended): the CPU requirement mode selection is exclusive as
claimed (explicit cpus_per_task checked as kind task, else a GPU job with a
positive cpus_per_gpu as kind gpu, else the effective thread count as kind
task), but independently of the mode the effective thread count is always
checked against max_threads, so a GPU job whose thread count exceeds a
finite max_threads is ineligible even when cpus_per_gpu is given. -/
theorem claim_C4_amended (p : Partition) (j : Job) :
    (∀ c, j.cpus_per_task = some c → 0 ≤ c →
      get_job_cpu_requirement j = .ok (max 1 c, .task)) ∧
    (j.cpus_per_task = none → ((j.gpu != 0) || gresHasGpu j.gres) = true →
      ∀ cg, j.cpus_per_gpu = some cg → 0 < cg →
      get_job_cpu_requirement j = .ok (cg, .gpu)) ∧
    (j.cpus_per_task = none →
      (j.cpus_per_gpu = none ∨ ((j.gpu != 0) || gresHasGpu j.gres) = false) →
      get_job_cpu_requirement j = .ok (get_effective_threads j, .task)) ∧
    (∀ t, p.limits.max_threads = some t → t < (get_effective_threads j : ℚ) →
      p.score_job_fit j = .ok none) := by
  refine ⟨?_, ?_, ?_, ?_⟩
  · intro c hc hnn
    simp [get_job_cpu_requirement, hc, show ¬(c < 0) from not_lt.mpr hnn]
  · intro h0 hgp cg hcg hpos
    simp [get_job_cpu_requirement, h0, hgp, hcg, show ¬(cg ≤ 0) from not_le.mpr hpos]
  · intro h0 hd
    rcases hd with h1 | h1
    · rcases Bool.eq_false_or_eq_true ((j.gpu != 0) || gresHasGpu j.gres) with hb | hb <;>
        simp [get_job_cpu_requirement, h0, h1, hb]
    · simp [get_job_cpu_requirement, h0, h1]
  · intro t ht hlt
    exact score_fit_none_of_threads p j t ht hlt

/-- Witness for claim C4 (amended) at the concrete gpu job and partition of
the counterexample. -/
theorem claim_C4_witness :
    get_job_cpu_requirement cexC4J = .ok (2, .gpu) ∧
    cexC4P.score_job_fit cexC4J = .ok none := by
  refine ⟨(claim_C4_amended cexC4P cexC4J).2.1 rfl (by decide) 2 rfl (by norm_num), ?_⟩
  apply (claim_C4_amended cexC4P cexC4J).2.2.2 4 (by decide)
  rw [show get_effective_threads cexC4J = 50 from by decide]
  norm_num

/-! ## Score value lemmas and claims C3 and C1 -/

theorem ratioQ_of_nonpos (r : ℚ) (lim : Option ℚ) (h : ¬0 < r) : ratioQ r lim = 0 := by
  simp [ratioQ, h]

theorem numericalContrib_val (p : Partition) (j : Job) (a : ℚ)
    (h : numericalContrib p j = some a) :
    a = ratioQ (j.mem_mb.getD 0) p.limits.max_mem_mb
      + ratioQ (j.mem_mb_per_cpu.getD 0) p.limits.max_mem_mb_per_cpu
      + ratioQ (j.runtime.getD 0) p.limits.max_runtime
      + ratioQ (j.nodes.getD 0) p.limits.max_nodes
      + ratioQ (j.tasks.getD 0) p.limits.max_tasks
      + ratioQ (j.tasks_per_node.getD 0) p.limits.max_tasks_per_node
      + ratioQ (j.mpi_tasks.getD 0) p.limits.max_mpi_tasks := by
  simp only [numericalContrib, Option.bind_eq_some, Option.map_eq_some'] at h
  obtain ⟨a1, h1, a2, h2, a3, h3, a4, h4, a5, h5, a6, h6, a7, h7, heq⟩ := h
  rw [← heq, dimCheck_val _ _ _ h1, dimCheck_val _ _ _ h2, dimCheck_val _ _ _ h3,
    dimCheck_val _ _ _ h4, dimCheck_val _ _ _ h5, dimCheck_val _ _ _ h6,
    dimCheck_val _ _ _ h7]

theorem cpuContrib_val (p : Partition) (cc : ℤ) (ck : CpuKind) (s3 : ℚ)
    (h : cpuContrib p cc ck = some s3) :
    s3 = (match ck with
      | .task => ratioQ (cc : ℚ) p.limits.max_threads + ratioQ (cc : ℚ) p.limits.max_cpus_per_task
      | .gpu => ratioQ (cc : ℚ) p.limits.max_cpus_per_gpu
      | .noneKind => 0) := by
  have hcast : ¬0 < cc → ¬(0 : ℚ) < (cc : ℚ) := fun hcc => by exact_mod_cast hcc
  cases ck with
  | task =>
    simp only [cpuContrib] at h
    split at h
    next hcond =>
      simp only [Option.bind_eq_some, Option.map_eq_some'] at h
      obtain ⟨a1, h1, a2, h2, heq⟩ := h
      simp only [← heq, dimCheck_val _ _ _ h1, dimCheck_val _ _ _ h2]
    next hcond =>
      split at h
      next hc2 => exact absurd hc2.1 (by simp)
      next =>
        have hcc : ¬0 < cc := fun hpos => hcond ⟨trivial, hpos⟩
        injection h with h
        simp [← h, ratioQ_of_nonpos _ _ (hcast hcc)]
  | gpu =>
    simp only [cpuContrib] at h
    split at h
    next hc1 => exact absurd hc1.1 (by simp)
    next =>
      split at h
      next hcond => simp [dimCheck_val _ _ _ h]
      next hcond =>
        have hcc : ¬0 < cc := fun hpos => hcond ⟨trivial, hpos⟩
        injection h with h
        simp [← h, ratioQ_of_nonpos _ _ (hcast hcc)]
  | noneKind =>
    simp [cpuContrib] at h
    simp [← h]

theorem gpuContrib_val (p : Partition) (gc : ℤ) (gm : Option String) (s4 : ℚ)
    (h : gpuContrib p gc gm = some s4) :
    s4 = if 0 < gc then (gc : ℚ) / (p.limits.max_gpu : ℚ) else 0 := by
  by_cases hgc : 0 < gc
  · rw [if_pos hgc]
    simp only [gpuContrib, if_pos hgc] at h
    split at h
    · cases h
    · split at h
      · split at h
        · exact (Option.some.inj h).symm
        · cases h
      · exact (Option.some.inj h).symm
  · rw [if_neg hgc]
    simp only [gpuContrib, if_neg hgc] at h
    exact (Option.some.inj h).symm

/-- Score of the concrete C3 partition and job (a pure 4-thread job on a
max_threads 10 partition). -/
theorem cexC3_score : cexC3P.score_job_fit cexC3J = .ok (some (4 / 5)) := by
  have het : get_effective_threads cexC3J = 4 := by decide
  have hcl : clusterOk cexC3P cexC3J = true := by decide
  have h1 : numericalContrib cexC3P cexC3J = some 0 := by
    norm_num [numericalContrib, dimCheck, cexC3P, cexC3J]
  have h2 : threadsContrib cexC3P cexC3J = some (2 / 5) := by
    rw [threadsContrib, het]
    norm_num [dimCheck, cexC3P]
  have hc : get_job_cpu_requirement cexC3J = .ok (4, .task) := by decide
  have h3 : cpuContrib cexC3P 4 .task = some (2 / 5) := by
    norm_num [cpuContrib, dimCheck, cexC3P]
  have hg : parse_gpu_requirements cexC3J = .ok (0, none) := by decide
  have h4 : gpuContrib cexC3P 0 none = some 0 := by decide
  have hm : (cexC3J.mpi && !cexC3P.limits.supports_mpi) = false := by decide
  have hcon : constraintsOk cexC3P cexC3J = true := by decide
  rw [score_fit_eq cexC3P cexC3J hcl 0 h1 (2 / 5) h2 4 .task hc (2 / 5) h3 0 none hg 0 h4
    hm hcon]
  norm_num

/-- Counterexample to claim C3: the 4-thread job scores 4/5 on the
max_threads 10 partition (the thread count is counted twice against
max_threads: once by the thread check and once as the fallen-back CPU
count), while the sum the claim describes, with each dimension contributing
exactly once, is 2/5. -/
theorem claim_C3_counterexample :
    cexC3P.score_job_fit cexC3J = .ok (some (4 / 5)) ∧
    specClaimedFitScore cexC3P cexC3J = 2 / 5 ∧ (4 / 5 : ℚ) ≠ 2 / 5 := by
  refine ⟨cexC3_score, ?_, by norm_num⟩
  have het : get_effective_threads cexC3J = 4 := by decide
  have hg : parse_gpu_requirements cexC3J = .ok (0, none) := by decide
  rw [specClaimedFitScore, het, hg]
  norm_num [ratioQ, cexC3P, cexC3J]

/-- Claim C3 (amended): for every eligible partition the fit score equals the
closed-form sum in which the seven numerical dimensions, the effective
thread count, the resolved CPU requirement and the gpu count each contribute
their utilization ratios, the CPU requirement counting against both
max_threads and max_cpus_per_task in task mode (hence the thread count is
counted twice against max_threads when the CPU requirement falls back to the
thread count), and against max_cpus_per_gpu in gpu mode. -/
theorem claim_C3_amended (p : Partition) (j : Job) (s : ℚ)
    (h : p.score_job_fit j = .ok (some s)) : s = codeFitScore p j := by
  obtain ⟨hcl, s1, s2, cc, ck, s3, gc, gm, s4, h1, h2, hc, h3, hg, h4, hm, hcon, hsum⟩ :=
    score_fit_inv p j s h
  have e1 := numericalContrib_val p j s1 h1
  rw [threadsContrib] at h2
  have e2 := dimCheck_val _ _ _ h2
  have e3 := cpuContrib_val p cc ck s3 h3
  have e4 := gpuContrib_val p gc gm s4 h4
  rw [codeFitScore, hc, hg]
  rw [hsum, e1, e2, e3, e4]
  cases ck <;> ring

/-- Witness for claim C3 (amended) at the concrete C3 partition and job. -/
theorem claim_C3_witness : (4 / 5 : ℚ) = codeFitScore cexC3P cexC3J :=
  claim_C3_amended cexC3P cexC3J (4 / 5) cexC3_score

theorem pyMaxByScore_eq_none_iff (xs : List (Partition × ℚ)) :
    pyMaxByScore xs = none ↔ xs = [] := by
  cases xs with
  | nil => simp [pyMaxByScore]
  | cons x rest =>
    simp only [pyMaxByScore]
    constructor
    · intro h
      split at h <;> cases h
    · intro h
      cases h

theorem pyMaxByScore_spec (xs : List (Partition × ℚ)) (m : Partition × ℚ)
    (h : pyMaxByScore xs = some m) :
    m ∈ xs ∧ (∀ x ∈ xs, x.2 ≤ m.2) ∧
    ∃ l1 l2, xs = l1 ++ m :: l2 ∧ ∀ x ∈ l1, x.2 < m.2 := by
  induction xs generalizing m with
  | nil => cases h
  | cons x rest ih =>
    rw [pyMaxByScore] at h
    cases hr : pyMaxByScore rest with
    | none =>
      rw [hr] at h
      injection h with h
      subst h
      have hnil : rest = [] := (pyMaxByScore_eq_none_iff rest).mp hr
      subst hnil
      exact ⟨by simp, by simp, [], [], rfl, by simp⟩
    | some m0 =>
      rw [hr] at h
      injection h with h
      obtain ⟨hmem, hge, l1, l2, hsplit, hlt⟩ := ih m0 hr
      by_cases hgt : m0.2 > x.2
      · rw [if_pos hgt] at h
        subst h
        refine ⟨List.mem_cons_of_mem x hmem, ?_, x :: l1, l2, by rw [hsplit]; rfl, ?_⟩
        · intro y hy
          rcases List.mem_cons.mp hy with hy | hy
          · subst hy; exact le_of_lt hgt
          · exact hge y hy
        · intro y hy
          rcases List.mem_cons.mp hy with hy | hy
          · subst hy; exact hgt
          · exact hlt y hy
      · rw [if_neg hgt] at h
        subst h
        refine ⟨List.mem_cons_self x rest, ?_, [], rest, rfl, by simp⟩
        intro y hy
        rcases List.mem_cons.mp hy with hy | hy
        · subst hy; exact le_refl _
        · exact le_trans (hge y hy) (not_lt.mp hgt)

theorem scored_partitions_mem (cands : List Partition) (j : Job)
    (l : List (Partition × ℚ)) (h : scored_partitions cands j = .ok l)
    (p : Partition) (s : ℚ) :
    (p, s) ∈ l ↔ p ∈ cands ∧ p.score_job_fit j = .ok (some s) ∧ 0 < s := by
  induction cands generalizing l with
  | nil =>
    rw [scored_partitions] at h
    injection h with h
    subst h
    simp
  | cons q rest ih =>
    rw [scored_partitions] at h
    cases hq : q.score_job_fit j with
    | error e => rw [hq] at h; cases h
    | ok so =>
      rw [hq] at h
      cases hrest : scored_partitions rest j with
      | error e => rw [hrest] at h; cases h
      | ok tail =>
        rw [hrest] at h
        have ihh := ih tail hrest
        cases so with
        | none =>
          injection h with h
          subst h
          rw [ihh, List.mem_cons]
          constructor
          · rintro ⟨hp, hs, hpos⟩
            exact ⟨Or.inr hp, hs, hpos⟩
          · rintro ⟨hp | hp, hs, hpos⟩
            · subst hp
              rw [hq] at hs
              cases hs
            · exact ⟨hp, hs, hpos⟩
        | some sc =>
          replace h : (if sc > 0 then Except.ok ((q, sc) :: tail)
              else Except.ok tail : Except String (List (Partition × ℚ))) = .ok l := h
          by_cases hpos : sc > 0
          · rw [if_pos hpos] at h
            injection h with h
            subst h
            rw [List.mem_cons, ihh, List.mem_cons]
            constructor
            · rintro (hhead | ⟨hp, hs, hsp⟩)
              · injection hhead with hp hsv
                subst hp
                subst hsv
                exact ⟨Or.inl rfl, hq, hpos⟩
              · exact ⟨Or.inr hp, hs, hsp⟩
            · rintro ⟨hp | hp, hs, hsp⟩
              · subst hp
                rw [hq] at hs
                injection hs with hs
                injection hs with hs
                subst hs
                exact Or.inl rfl
              · exact Or.inr ⟨hp, hs, hsp⟩
          · rw [if_neg hpos] at h
            injection h with h
            subst h
            rw [ihh, List.mem_cons]
            constructor
            · rintro ⟨hp, hs, hsp⟩
              exact ⟨Or.inr hp, hs, hsp⟩
            · rintro ⟨hp | hp, hs, hsp⟩
              · subst hp
                rw [hq] at hs
                injection hs with hs
                injection hs with hs
                subst hs
                exact absurd hsp hpos
              · exact ⟨hp, hs, hsp⟩

/-- Score of the concrete all-unbounded partition on the default job: it is
eligible with score exactly 0. -/
theorem cexC1_score : cexC1P.score_job_fit cexC1J = .ok (some 0) := by
  have hcl : clusterOk cexC1P cexC1J = true := by decide
  have h1 : numericalContrib cexC1P cexC1J = some 0 := by
    norm_num [numericalContrib, dimCheck, cexC1P, cexC1J]
  have h2 : threadsContrib cexC1P cexC1J = some 0 := by
    rw [threadsContrib, show get_effective_threads cexC1J = 1 from by decide]
    norm_num [dimCheck, cexC1P]
  have hc : get_job_cpu_requirement cexC1J = .ok (1, .task) := by decide
  have h3 : cpuContrib cexC1P 1 .task = some 0 := by
    norm_num [cpuContrib, dimCheck, cexC1P]
  have hg : parse_gpu_requirements cexC1J = .ok (0, none) := by decide
  have h4 : gpuContrib cexC1P 0 none = some 0 := by decide
  have hm : (cexC1J.mpi && !cexC1P.limits.supports_mpi) = false := by decide
  have hcon : constraintsOk cexC1P cexC1J = true := by decide
  rw [score_fit_eq cexC1P cexC1J hcl 0 h1 0 h2 1 .task hc 0 h3 0 none hg 0 h4 hm hcon]
  norm_num

/-- Counterexample to claim C1: the all-unbounded partition is eligible for
the default job (score_job_fit returns the score 0, not None), yet
get_best_partition returns none for the one-partition catalog, because the
source keeps only partitions with strictly positive score; so null is
returned although an eligible partition exists. -/
theorem claim_C1_counterexample :
    cexC1P.score_job_fit cexC1J = .ok (some 0) ∧
    get_best_partition [cexC1P] cexC1J = .ok none := by
  refine ⟨cexC1_score, ?_⟩
  rw [get_best_partition, scored_partitions, cexC1_score, scored_partitions]
  norm_num [pyMaxByScore]

/-- Claim C1 (amended): when scoring raises no error, get_best_partition
returns none exactly when no partition in the catalog is eligible with a
strictly positive score; otherwise it returns the name of the first
partition, in catalog order, attaining the maximal score among the
positively scored eligible ones (the scored list keeps catalog order and
holds exactly the eligible partitions with positive score). -/
theorem claim_C1_amended (cands : List Partition) (j : Job)
    (l : List (Partition × ℚ)) (h : scored_partitions cands j = .ok l) :
    (get_best_partition cands j = .ok none ↔
      ∀ p s, p ∈ cands → p.score_job_fit j = .ok (some s) → ¬0 < s) ∧
    (∀ m, pyMaxByScore l = some m →
      get_best_partition cands j = .ok (some m.1.name) ∧ m ∈ l ∧
      (∀ x ∈ l, x.2 ≤ m.2) ∧ ∃ l1 l2, l = l1 ++ m :: l2 ∧ ∀ x ∈ l1, x.2 < m.2) ∧
    (∀ p s, (p, s) ∈ l ↔ p ∈ cands ∧ p.score_job_fit j = .ok (some s) ∧ 0 < s) := by
  have hbest : get_best_partition cands j =
      (match pyMaxByScore l with
        | some best => .ok (some best.1.name)
        | none => .ok none) := by
    rw [get_best_partition, h]
  refine ⟨?_, ?_, scored_partitions_mem cands j l h⟩
  · rw [hbest]
    cases hm : pyMaxByScore l with
    | none =>
      have hnil := (pyMaxByScore_eq_none_iff l).mp hm
      subst hnil
      simp only [true_iff]
      intro p s hp hs hpos
      exact absurd ((scored_partitions_mem cands j [] h p s).mpr ⟨hp, hs, hpos⟩)
        (List.not_mem_nil (p, s))
    | some m =>
      obtain ⟨hmem, -, -⟩ := pyMaxByScore_spec l m hm
      obtain ⟨hp, hs, hpos⟩ := (scored_partitions_mem cands j l h m.1 m.2).mp (by simpa using hmem)
      constructor
      · intro hcontra
        exact absurd hcontra (by simp)
      · intro hall
        exact absurd hpos (hall m.1 m.2 hp hs)
  · intro m hm
    obtain ⟨hmem, hge, l1, l2, hsplit, hlt⟩ := pyMaxByScore_spec l m hm
    refine ⟨?_, hmem, hge, l1, l2, hsplit, hlt⟩
    rw [hbest, hm]

/-- Witness for claim C1 (amended): a two-partition catalog whose entries tie
with score 4/5; the first one in catalog order is selected. -/
theorem claim_C1_witness :
    get_best_partition [cexC3P, cexC3P] cexC3J = .ok (some "threaded") := by
  have hsp : scored_partitions [cexC3P, cexC3P] cexC3J =
      .ok [(cexC3P, 4 / 5), (cexC3P, 4 / 5)] := by
    rw [scored_partitions, cexC3_score, scored_partitions, cexC3_score, scored_partitions]
    norm_num
  have happ := (claim_C1_amended _ cexC3J _ hsp).2.1 (cexC3P, 4 / 5)
    (by rw [pyMaxByScore, pyMaxByScore, pyMaxByScore]; norm_num)
  exact happ.1

/-! ## Claim C8: eligibility monotonicity -/

theorem dimCheck_mono_some (r : ℚ) (lim lim' : Option ℚ) (hle : oleQ lim lim') (q : ℚ)
    (h : dimCheck r lim = some q) : ∃ q', dimCheck r lim' = some q' := by
  have hne : dimCheck r lim' ≠ none := dimCheck_mono r lim lim' hle (by simp [h])
  cases hd : dimCheck r lim' with
  | none => exact absurd hd hne
  | some q' => exact ⟨q', rfl⟩

theorem numericalContrib_mono (p : Partition) (l' : PartitionLimits) (j : Job)
    (hle : LimitsLE p.limits l') (a : ℚ) (h : numericalContrib p j = some a) :
    ∃ a', numericalContrib { p with limits := l' } j = some a' := by
  simp only [numericalContrib, Option.bind_eq_some, Option.map_eq_some'] at h ⊢
  obtain ⟨a1, h1, a2, h2, a3, h3, a4, h4, a5, h5, a6, h6, a7, h7, -⟩ := h
  obtain ⟨b1, hb1⟩ := dimCheck_mono_some _ _ _ hle.h_mem _ h1
  obtain ⟨b2, hb2⟩ := dimCheck_mono_some _ _ _ hle.h_mem_per_cpu _ h2
  obtain ⟨b3, hb3⟩ := dimCheck_mono_some _ _ _ hle.h_runtime _ h3
  obtain ⟨b4, hb4⟩ := dimCheck_mono_some _ _ _ hle.h_nodes _ h4
  obtain ⟨b5, hb5⟩ := dimCheck_mono_some _ _ _ hle.h_tasks _ h5
  obtain ⟨b6, hb6⟩ := dimCheck_mono_some _ _ _ hle.h_tpn _ h6
  obtain ⟨b7, hb7⟩ := dimCheck_mono_some _ _ _ hle.h_mpi_tasks _ h7
  exact ⟨b1 + b2 + b3 + b4 + b5 + b6 + b7, b1, hb1, b2, hb2, b3, hb3, b4, hb4, b5, hb5,
    b6, hb6, b7, hb7, rfl⟩

theorem threadsContrib_mono (p : Partition) (l' : PartitionLimits) (j : Job)
    (hle : LimitsLE p.limits l') (s2 : ℚ) (h : threadsContrib p j = some s2) :
    ∃ s2', threadsContrib { p with limits := l' } j = some s2' := by
  rw [threadsContrib] at h ⊢
  exact dimCheck_mono_some _ _ _ hle.h_thr _ h

theorem cpuContrib_mono (p : Partition) (l' : PartitionLimits) (cc : ℤ) (ck : CpuKind)
    (hle : LimitsLE p.limits l') (s3 : ℚ) (h : cpuContrib p cc ck = some s3) :
    ∃ s3', cpuContrib { p with limits := l' } cc ck = some s3' := by
  simp only [cpuContrib] at h ⊢
  split at h
  next hcond =>
    rw [if_pos hcond]
    simp only [Option.bind_eq_some, Option.map_eq_some'] at h ⊢
    obtain ⟨a1, h1, a2, h2, -⟩ := h
    obtain ⟨b1, hb1⟩ := dimCheck_mono_some _ _ _ hle.h_thr _ h1
    obtain ⟨b2, hb2⟩ := dimCheck_mono_some _ _ _ hle.h_cpt _ h2
    exact ⟨b1 + b2, b1, hb1, b2, hb2, rfl⟩
  next hcond =>
    rw [if_neg hcond]
    split at h
    next hcond2 =>
      rw [if_pos hcond2]
      exact dimCheck_mono_some _ _ _ hle.h_cpg _ h
    next hcond2 =>
      rw [if_neg hcond2]
      exact ⟨s3, h⟩

theorem gpuContrib_mono (p : Partition) (l' : PartitionLimits) (gc : ℤ) (gm : Option String)
    (hle : LimitsLE p.limits l') (s4 : ℚ) (h : gpuContrib p gc gm = some s4) :
    ∃ s4', gpuContrib { p with limits := l' } gc gm = some s4' := by
  by_cases hgc : 0 < gc
  · simp only [gpuContrib, if_pos hgc] at h ⊢
    split at h
    · cases h
    next hng =>
      push_neg at hng
      obtain ⟨hne, hgle⟩ := hng
      have hgle' := hle.h_gpu
      rw [if_neg (by push_neg; omega)]
      rw [← hle.h_models]
      split at h
      next hmod =>
        rw [if_pos hmod]
        split at h
        next hin =>
          rw [if_pos hin]
          exact ⟨_, rfl⟩
        next hin => cases h
      next hmod =>
        rw [if_neg hmod]
        exact ⟨_, rfl⟩
  · exact ⟨0, by simp [gpuContrib, hgc]⟩

theorem limitsLE_of_single (l l' : PartitionLimits) (h : singleLimitIncrease l l') :
    LimitsLE l l' := by
  rcases h with ⟨v, rfl, hv⟩ | ⟨v, rfl, hv⟩ | ⟨v, rfl, hv⟩ | ⟨v, rfl, hv⟩ | ⟨v, rfl, hv⟩ |
    ⟨v, rfl, hv⟩ | ⟨v, rfl, hv⟩ | ⟨v, rfl, hv⟩ | ⟨v, rfl, hv⟩ | ⟨v, rfl, hv⟩ | ⟨v, rfl, hv⟩ <;>
    exact { h_runtime := by first | exact hv | exact oleQ_refl _
            h_mem := by first | exact hv | exact oleQ_refl _
            h_mem_per_cpu := by first | exact hv | exact oleQ_refl _
            h_cpt := by first | exact hv | exact oleQ_refl _
            h_thr := by first | exact hv | exact oleQ_refl _
            h_nodes := by first | exact hv | exact oleQ_refl _
            h_tasks := by first | exact hv | exact oleQ_refl _
            h_tpn := by first | exact hv | exact oleQ_refl _
            h_gpu := by first | exact hv | exact le_refl _
            h_cpg := by first | exact hv | exact oleQ_refl _
            h_mpi_tasks := by first | exact hv | exact oleQ_refl _
            h_models := rfl
            h_mpi := rfl
            h_constraints := rfl }

/-- Claim C8: increasing any single numeric partition limit, with all other
fields held fixed, preserves eligibility: a partition eligible for a job
(score_job_fit returns a score) remains eligible after the increase. -/
theorem claim_C8 (p : Partition) (l' : PartitionLimits) (j : Job)
    (hinc : singleLimitIncrease p.limits l') (s : ℚ)
    (h : p.score_job_fit j = .ok (some s)) :
    ∃ s', Partition.score_job_fit { p with limits := l' } j = .ok (some s') := by
  have hle : LimitsLE p.limits l' := limitsLE_of_single p.limits l' hinc
  obtain ⟨hcl, s1, s2, cc, ck, s3, gc, gm, s4, h1, h2, hc, h3, hg, h4, hm, hcon, -⟩ :=
    score_fit_inv p j s h
  obtain ⟨a1, ha1⟩ := numericalContrib_mono p l' j hle s1 h1
  obtain ⟨a2, ha2⟩ := threadsContrib_mono p l' j hle s2 h2
  obtain ⟨a3, ha3⟩ := cpuContrib_mono p l' cc ck hle s3 h3
  obtain ⟨a4, ha4⟩ := gpuContrib_mono p l' gc gm hle s4 h4
  refine ⟨a1 + a2 + a3 + a4,
    score_fit_eq _ j ?_ a1 ha1 a2 ha2 cc ck hc a3 ha3 gc gm hg a4 ha4 ?_ ?_⟩
  · exact hcl
  · show (j.mpi && !l'.supports_mpi) = false
    rw [← hle.h_mpi]
    exact hm
  · show constraintsOk { p with limits := l' } j = true
    rw [← hcon]
    unfold constraintsOk
    rw [show ({ p with limits := l' } : Partition).limits.available_constraints =
      p.limits.available_constraints from hle.h_constraints.symm]

/-- Witness for claim C8: raising max_threads from 10 to 20 keeps the
concrete 4-thread job eligible. -/
theorem claim_C8_witness :
    ∃ s', Partition.score_job_fit { cexC3P with limits := { max_threads := some 20 } }
      cexC3J = .ok (some s') :=
  claim_C8 cexC3P { max_threads := some 20 } cexC3J
    (Or.inr (Or.inr (Or.inr (Or.inr (Or.inl
      ⟨some 20, by decide, by norm_num [oleQ, cexC3P]⟩)))))
    (4 / 5) cexC3_score

/-! ## Classification lemmas and claims C5, C6, C7, C2 -/

theorem classify_terminal_mem_successes (snap : Snapshot) (flag : Bool)
    (active : List String) (j : String) (hj : j ∈ active)
    (hst : lookupStatus snap j = some "COMPLETED" ∨ lookupStatus snap j = some "UNKNOWN") :
    j ∈ (classifyJobs snap flag active).successes := by
  induction active generalizing flag with
  | nil => cases hj
  | cons id rest ih =>
    rcases List.mem_cons.mp hj with hij | hjr
    · subst hij
      rcases hst with hst | hst <;> simp [classifyJobs, hst]
    · have hji : ∀ fl, j ∈ (classifyJobs snap fl rest).successes := fun fl => ih fl hjr
      cases hl : lookupStatus snap id with
      | none => simp [classifyJobs, hl, hji]
      | some st =>
        simp only [classifyJobs, hl]
        split_ifs <;> simp [hji, List.mem_cons]

theorem classify_terminal_not_yielded (snap : Snapshot) (flag : Bool)
    (active : List String) (j : String)
    (hst : lookupStatus snap j = some "COMPLETED" ∨ lookupStatus snap j = some "UNKNOWN") :
    j ∉ (classifyJobs snap flag active).yielded := by
  induction active generalizing flag with
  | nil => simp [classifyJobs]
  | cons id rest ih =>
    by_cases hij : id = j
    · subst hij
      rcases hst with hst | hst <;> simp [classifyJobs, hst, ih]
    · have hji : ¬j = id := fun hh => hij hh.symm
      cases hl : lookupStatus snap id with
      | none => simp [classifyJobs, hl, hji, ih flag]
      | some st =>
        simp only [classifyJobs, hl]
        split_ifs <;> simp [hji, ih, List.mem_cons]

theorem classify_terminal_anyFinished (snap : Snapshot) (flag : Bool)
    (active : List String) (j : String) (hj : j ∈ active)
    (hst : lookupStatus snap j = some "COMPLETED" ∨ lookupStatus snap j = some "UNKNOWN") :
    (classifyJobs snap flag active).anyFinished = true := by
  induction active generalizing flag with
  | nil => cases hj
  | cons id rest ih =>
    rcases List.mem_cons.mp hj with hij | hjr
    · subst hij
      rcases hst with hst | hst <;> simp [classifyJobs, hst]
    · have hji : ∀ fl, (classifyJobs snap fl rest).anyFinished = true := fun fl => ih fl hjr
      cases hl : lookupStatus snap id with
      | none => simp [classifyJobs, hl, hji]
      | some st =>
        simp only [classifyJobs, hl]
        split_ifs <;> simp [hji]

theorem classify_preempted_mem_yielded (snap : Snapshot) (flag : Bool)
    (active : List String) (j : String) (hj : j ∈ active)
    (hst : lookupStatus snap j = some "PREEMPTED") :
    j ∈ (classifyJobs snap flag active).yielded := by
  induction active generalizing flag with
  | nil => cases hj
  | cons id rest ih =>
    rcases List.mem_cons.mp hj with hij | hjr
    · subst hij
      by_cases hflag : flag = false <;> simp [classifyJobs, hst, hflag, failStati]
    · have hji : ∀ fl, j ∈ (classifyJobs snap fl rest).yielded := fun fl => ih fl hjr
      cases hl : lookupStatus snap id with
      | none => simp [classifyJobs, hl, hji]
      | some st =>
        simp only [classifyJobs, hl]
        split_ifs <;> simp [hji, List.mem_cons]

theorem classify_preempted_not_reported (snap : Snapshot) (flag : Bool)
    (active : List String) (j : String)
    (hst : lookupStatus snap j = some "PREEMPTED") :
    j ∉ (classifyJobs snap flag active).successes ∧
    j ∉ (classifyJobs snap flag active).failures := by
  induction active generalizing flag with
  | nil => simp [classifyJobs]
  | cons id rest ih =>
    by_cases hij : id = j
    · subst hij
      by_cases hflag : flag = false <;>
        simp [classifyJobs, hst, hflag, failStati, ih]
    · have hji : ¬j = id := fun hh => hij hh.symm
      cases hl : lookupStatus snap id with
      | none => simp [classifyJobs, hl, hji, ih flag]
      | some st =>
        simp only [classifyJobs, hl]
        split_ifs <;> simp [hji, ih, List.mem_cons]

theorem classify_warnCount_true (snap : Snapshot) (active : List String) :
    (classifyJobs snap true active).warnCount = 0 := by
  induction active with
  | nil => simp [classifyJobs]
  | cons id rest ih =>
    cases hl : lookupStatus snap id with
    | none => simp [classifyJobs, hl, ih]
    | some st =>
      simp only [classifyJobs, hl]
      split_ifs with h1 h2 h3 h4 <;> first | exact h2.2.elim | simp [ih]

theorem classify_warned_true (snap : Snapshot) (active : List String) :
    (classifyJobs snap true active).warned = true := by
  induction active with
  | nil => simp [classifyJobs]
  | cons id rest ih =>
    cases hl : lookupStatus snap id with
    | none => simp [classifyJobs, hl, ih]
    | some st =>
      simp only [classifyJobs, hl]
      split_ifs with h1 h2 h3 h4 <;> first | exact h2.2.elim | simp [ih]

theorem classify_warnCount_false (snap : Snapshot) (active : List String) :
    (classifyJobs snap false active).warnCount =
      if ∃ x ∈ active, lookupStatus snap x = some "PREEMPTED" then 1 else 0 := by
  induction active with
  | nil => simp [classifyJobs]
  | cons id rest ih =>
    cases hl : lookupStatus snap id with
    | none => simp [classifyJobs, hl, ih, hl]
    | some st =>
      simp only [classifyJobs, hl]
      split_ifs with h1 h2 h3 h4 <;>
        simp_all [ih, classify_warnCount_true, hl]

theorem classify_warned_false (snap : Snapshot) (active : List String) :
    ((classifyJobs snap false active).warned = true ↔
      ∃ x ∈ active, lookupStatus snap x = some "PREEMPTED") := by
  induction active with
  | nil => simp [classifyJobs]
  | cons id rest ih =>
    cases hl : lookupStatus snap id with
    | none => simp [classifyJobs, hl, ih, hl]
    | some st =>
      simp only [classifyJobs, hl]
      split_ifs with h1 h2 h3 h4 <;>
        simp_all [ih, classify_warned_true, hl]

/-- Claim C5: a job whose status in the last obtained snapshot is UNKNOWN is
classified as completed by the cycle: it is reported successful, not
re-yielded, counts as a terminal transition, and the wait resets to the
initial interval. -/
theorem claim_C5 (ci : CycleInput) (flag : Bool) (current initial : ℕ) (snap : Snapshot)
    (j : String) (hne : ¬ci.activeIds.isEmpty = true)
    (hsnap : (runAttempts ci.activeIds ci.attempts initLoopState).statusOfJobs = some snap)
    (hj : j ∈ ci.activeIds) (hst : lookupStatus snap j = some "UNKNOWN") :
    (runCycle ci flag current initial).result = some (classifyJobs snap flag ci.activeIds) ∧
    j ∈ (classifyJobs snap flag ci.activeIds).successes ∧
    j ∉ (classifyJobs snap flag ci.activeIds).yielded ∧
    (classifyJobs snap flag ci.activeIds).anyFinished = true ∧
    (runCycle ci flag current initial).nextWait = initial := by
  have h1 := classify_terminal_mem_successes snap flag ci.activeIds j hj (Or.inr hst)
  have h2 := classify_terminal_not_yielded snap flag ci.activeIds j (Or.inr hst)
  have h3 := classify_terminal_anyFinished snap flag ci.activeIds j hj (Or.inr hst)
  have hrc : runCycle ci flag current initial =
      ⟨true, some (classifyJobs snap flag ci.activeIds),
        (runAttempts ci.activeIds ci.attempts initLoopState).missing,
        (classifyJobs snap flag ci.activeIds).warned,
        if (classifyJobs snap flag ci.activeIds).anyFinished then initial
        else min (current + 10) maxSleepTime⟩ := by
    rw [runCycle, if_neg hne, hsnap]
  rw [hrc]
  exact ⟨rfl, h1, h2, h3, by simp [h3]⟩

/-- Witness for claim C5 at a concrete one-job cycle with status UNKNOWN. -/
theorem claim_C5_witness :
    "u1" ∈ (classifyJobs [("u1", "UNKNOWN")] false ["u1"]).successes ∧
    (runCycle ⟨["u1"], [some [("u1", "UNKNOWN")]]⟩ false 70 40).nextWait = 40 := by
  have h := claim_C5 ⟨["u1"], [some [("u1", "UNKNOWN")]]⟩ false 70 40
    [("u1", "UNKNOWN")] "u1" (by decide) (by decide) (by decide) (by decide)
  exact ⟨h.2.1, h.2.2.2.2⟩

/-- Converse of classify_terminal_anyFinished: when no active job carries
status COMPLETED or UNKNOWN in the snapshot (a FAILED job in particular
reports an error without setting the finished flag), the cycle counts zero
finished jobs. -/
theorem classify_no_success_anyFinished (snap : Snapshot) (flag : Bool)
    (active : List String) :
    (∀ j ∈ active, lookupStatus snap j ≠ some "COMPLETED" ∧
      lookupStatus snap j ≠ some "UNKNOWN") →
    (classifyJobs snap flag active).anyFinished = false := by
  induction active generalizing flag with
  | nil => intro h; simp [classifyJobs]
  | cons id rest ih =>
    intro h
    have hid := h id (List.mem_cons_self id rest)
    have hrest : ∀ fl, (classifyJobs snap fl rest).anyFinished = false :=
      fun fl => ih fl (fun j hj => h j (List.mem_cons_of_mem id hj))
    cases hl : lookupStatus snap id with
    | none => simp [classifyJobs, hl, hrest]
    | some st =>
      simp only [classifyJobs, hl]
      split_ifs with h1 h2 h3 h4
      · exact absurd (hl.trans (by rw [h1])) hid.1
      · simp [hrest]
      · exact absurd (hl.trans (by rw [h3])) hid.2
      · simp [hrest]
      · simp [hrest]

/-- Counterexample to claim C6, in two parts.  First, a terminal transition
does not always reset the wait: a cycle whose only classification is a
FAILED job (terminal: the job is reported failed and removed) leaves
any_finished unset, so the wait moves from 40 to 50 instead of resetting to
the initial interval 40.  Second, with the configured initial interval 175,
a zero-terminal cycle with an obtained snapshot moves the wait from 175 to
180 (the cap), which is neither 175 + 10 nor a wait already at the cap. -/
theorem claim_C6_counterexample :
    (runCycle ⟨["f"], [some [("f", "FAILED")]]⟩ false 40 40).result =
      some ⟨[], ["f"], [], false, false, 0⟩ ∧
    (runCycle ⟨["f"], [some [("f", "FAILED")]]⟩ false 40 40).nextWait = 50 ∧
    (50 : ℕ) ≠ 40 ∧
    (runCycle ⟨["y"], [some [("y", "RUNNING")]]⟩ false 175 175).queried = true ∧
    (runCycle ⟨["y"], [some [("y", "RUNNING")]]⟩ false 175 175).result =
      some ⟨[], [], ["y"], false, false, 0⟩ ∧
    (runCycle ⟨["y"], [some [("y", "RUNNING")]]⟩ false 175 175).nextWait = 180 ∧
    175 + 10 ≠ 180 ∧ (175 : ℕ) ≠ 180 := by decide

/-- Claim C6 (amended): an empty active set skips querying and resets the wait
to the initial interval; a cycle with an obtained snapshot resets the wait
to the initial interval exactly when some active job is observed with status
COMPLETED or UNKNOWN (the only statuses that mark a job finished for the
interval adaptation; a FAILED job is reported terminal but does not reset
the wait); when no active job has either status, even if some were reported
FAILED, the wait becomes min (current + 10) 180, which never exceeds 180 and
equals current + 10 exactly when that does not overshoot the cap. -/
theorem claim_C6_amended (ci : CycleInput) (flag : Bool) (current initial : ℕ) :
    (ci.activeIds = [] →
      (runCycle ci flag current initial).queried = false ∧
      (runCycle ci flag current initial).nextWait = initial) ∧
    (∀ snap, (runAttempts ci.activeIds ci.attempts initLoopState).statusOfJobs = some snap →
      ci.activeIds ≠ [] →
      ((∃ j ∈ ci.activeIds, lookupStatus snap j = some "COMPLETED" ∨
          lookupStatus snap j = some "UNKNOWN") →
        (runCycle ci flag current initial).nextWait = initial) ∧
      ((∀ j ∈ ci.activeIds, lookupStatus snap j ≠ some "COMPLETED" ∧
          lookupStatus snap j ≠ some "UNKNOWN") →
        (runCycle ci flag current initial).nextWait = min (current + 10) 180 ∧
        (runCycle ci flag current initial).nextWait ≤ 180 ∧
        (current + 10 ≤ 180 → (runCycle ci flag current initial).nextWait = current + 10))) := by
  constructor
  · intro hempty
    rw [runCycle, if_pos (by simp [hempty])]
    simp
  · intro snap hsnap hne
    have hrc : runCycle ci flag current initial =
        ⟨true, some (classifyJobs snap flag ci.activeIds),
          (runAttempts ci.activeIds ci.attempts initLoopState).missing,
          (classifyJobs snap flag ci.activeIds).warned,
          if (classifyJobs snap flag ci.activeIds).anyFinished then initial
          else min (current + 10) maxSleepTime⟩ := by
      rw [runCycle, if_neg (by simpa using hne), hsnap]
    rw [hrc]
    constructor
    · rintro ⟨j, hj, hst⟩
      have hfin := classify_terminal_anyFinished snap flag ci.activeIds j hj hst
      simp [hfin]
    · intro hnone
      have hfin := classify_no_success_anyFinished snap flag ci.activeIds hnone
      rw [hfin]
      exact ⟨rfl, min_le_right _ _, fun hle => min_eq_left hle⟩

/-- Witness for claim C6 (amended): a failure-only cycle at wait 40 moves the
wait to exactly 50 (no reset), and a cycle observing an UNKNOWN job at wait
70 resets it to the initial interval 40. -/
theorem claim_C6_witness :
    (runCycle ⟨["f"], [some [("f", "FAILED")]]⟩ false 40 40).nextWait = 40 + 10 ∧
    (runCycle ⟨["u1"], [some [("u1", "UNKNOWN")]]⟩ false 70 40).nextWait = 40 := by
  constructor
  · have h := ((claim_C6_amended ⟨["f"], [some [("f", "FAILED")]]⟩ false 40 40).2
      [("f", "FAILED")] (by decide) (by decide)).2 (by decide)
    exact h.2.2 (by norm_num)
  · exact ((claim_C6_amended ⟨["u1"], [some [("u1", "UNKNOWN")]]⟩ false 70 40).2
      [("u1", "UNKNOWN")] (by decide) (by decide)).1
      ⟨"u1", by decide, Or.inr (by decide)⟩

/-- Counterexample to claim C2: in the described scenario (job x absent from
the snapshots of the first two attempts, present as COMPLETED from the
third, job y present everywhere) the attempt loop already reaches an empty
missing set after attempt 1 and stops there, so job x is re-yielded as
pending instead of being reported terminal during the cycle; the missing
warning is indeed empty. -/
theorem claim_C2_counterexample :
    runAttempts cexC2active cexC2snaps initLoopState =
      ⟨some [("y", "RUNNING")], ["y"], []⟩ ∧
    (runCycle cexC2input false 40 40).result =
      some ⟨[], [], ["x", "y"], false, false, 0⟩ ∧
    (runCycle cexC2input false 40 40).missingWarning = [] := by decide

/-- Claim C2 (amended): after an executed attempt the loop stops early exactly
when missing = (ever seen minus seen this attempt) is empty, and a failed
attempt never stops the loop; in the described coverage-gap scenario missing
is already empty after attempt 1, so the loop stops there and job x, absent
from the last obtained snapshot, is re-yielded as pending (not reported
terminal) and is not listed in the missing warning. -/
theorem claim_C2_amended :
    (∀ (activeIds : List String) (st : LoopState) (snap : Snapshot),
      (attemptStep activeIds st (some snap)).2 =
        (attemptStep activeIds st (some snap)).1.missing.isEmpty) ∧
    (∀ (activeIds : List String) (st : LoopState),
      (attemptStep activeIds st none).2 = false) ∧
    (∀ (activeIds : List String) (att : Option Snapshot) (rest : List (Option Snapshot))
      (st : LoopState),
      runAttempts activeIds (att :: rest) st =
        if (attemptStep activeIds st att).2 then (attemptStep activeIds st att).1
        else runAttempts activeIds rest (attemptStep activeIds st att).1) ∧
    runAttempts cexC2active cexC2snaps initLoopState =
      ⟨some [("y", "RUNNING")], ["y"], []⟩ ∧
    "x" ∈ (classifyJobs [("y", "RUNNING")] false cexC2active).yielded ∧
    "x" ∉ (classifyJobs [("y", "RUNNING")] false cexC2active).successes ∧
    (runCycle cexC2input false 40 40).missingWarning = [] := by
  refine ⟨fun activeIds st snap => rfl, fun activeIds st => rfl,
    fun activeIds att rest st => rfl, by decide, by decide, by decide, by decide⟩

theorem runCycle_warnsOf (ci : CycleInput) (flag : Bool) (current initial : ℕ) :
    warnsOf (runCycle ci flag current initial) =
      if flag = false ∧ obsPreempted ci = true then 1 else 0 := by
  by_cases hemp : ci.activeIds.isEmpty = true
  · rw [runCycle, if_pos hemp]
    simp [warnsOf, obsPreempted, hemp]
  · cases hsnap : (runAttempts ci.activeIds ci.attempts initLoopState).statusOfJobs with
    | none =>
      rw [runCycle, if_neg hemp, hsnap]
      simp [warnsOf, obsPreempted, hemp, hsnap]
    | some snap =>
      rw [runCycle, if_neg hemp, hsnap]
      have hobs : obsPreempted ci =
          decide (∃ x ∈ ci.activeIds, lookupStatus snap x = some "PREEMPTED") := by
        simp [obsPreempted, hemp, hsnap]
      cases flag with
      | true => simp [warnsOf, classify_warnCount_true]
      | false =>
        simp only [warnsOf, classify_warnCount_false, hobs, true_and, decide_eq_true_eq]


theorem runCycle_flagAfter (ci : CycleInput) (flag : Bool) (current initial : ℕ) :
    (runCycle ci flag current initial).flagAfter = (flag || obsPreempted ci) := by
  by_cases hemp : ci.activeIds.isEmpty = true
  · rw [runCycle, if_pos hemp]
    simp [obsPreempted, hemp]
  · cases hsnap : (runAttempts ci.activeIds ci.attempts initLoopState).statusOfJobs with
    | none =>
      rw [runCycle, if_neg hemp, hsnap]
      simp [obsPreempted, hemp, hsnap]
    | some snap =>
      rw [runCycle, if_neg hemp, hsnap]
      have hobs : obsPreempted ci =
          decide (∃ x ∈ ci.activeIds, lookupStatus snap x = some "PREEMPTED") := by
        simp [obsPreempted, hemp, hsnap]
      cases flag with
      | true => simp [classify_warned_true]
      | false =>
        rw [hobs]
        show (classifyJobs snap false ci.activeIds).warned = _
        cases hD : decide (∃ x ∈ ci.activeIds, lookupStatus snap x = some "PREEMPTED") with
        | true =>
          simp only [Bool.false_or]
          exact (classify_warned_false snap ci.activeIds).mpr (of_decide_eq_true hD)
        | false =>
          simp only [Bool.false_or]
          have hnot := of_decide_eq_false hD
          cases hw : (classifyJobs snap false ci.activeIds).warned with
          | false => rfl
          | true => exact absurd ((classify_warned_false snap ci.activeIds).mp hw) hnot

theorem warnTotal_true (initial : ℕ) (inputs : List CycleInput) (current : ℕ) :
    warnTotal (runCycles initial inputs true current) = 0 := by
  induction inputs generalizing current with
  | nil => simp [runCycles, warnTotal]
  | cons ci rest ih =>
    rw [runCycles]
    simp only [warnTotal, List.map_cons, List.sum_cons]
    rw [runCycle_warnsOf, runCycle_flagAfter]
    simp only [Bool.true_or]
    have := ih (runCycle ci true current initial).nextWait
    simp only [warnTotal] at this
    simp [this]

/-- Claim C7: a job observed with status PREEMPTED is never classified as
terminal (it is re-yielded and appears in no success or failure report), and
the preemption warning is surfaced at most once per process lifetime: a
cycle warns exactly when the flag is still unset and a PREEMPTED status is
observed, the flag then latches, and over any run started with the flag
unset the total number of warnings is 1 when some cycle observes a
preemption and 0 otherwise. -/
theorem claim_C7 :
    (∀ (snap : Snapshot) (flag : Bool) (active : List String) (j : String),
      j ∈ active → lookupStatus snap j = some "PREEMPTED" →
      j ∈ (classifyJobs snap flag active).yielded ∧
      j ∉ (classifyJobs snap flag active).successes ∧
      j ∉ (classifyJobs snap flag active).failures) ∧
    (∀ (ci : CycleInput) (flag : Bool) (current initial : ℕ),
      warnsOf (runCycle ci flag current initial) =
        (if flag = false ∧ obsPreempted ci = true then 1 else 0) ∧
      (runCycle ci flag current initial).flagAfter = (flag || obsPreempted ci)) ∧
    (∀ (initial : ℕ) (inputs : List CycleInput) (current : ℕ),
      warnTotal (runCycles initial inputs false current) =
        if inputs.any obsPreempted then 1 else 0) := by
  refine ⟨?_, ?_, ?_⟩
  · intro snap flag active j hj hst
    exact ⟨classify_preempted_mem_yielded snap flag active j hj hst,
      (classify_preempted_not_reported snap flag active j hst).1,
      (classify_preempted_not_reported snap flag active j hst).2⟩
  · intro ci flag current initial
    exact ⟨runCycle_warnsOf ci flag current initial, runCycle_flagAfter ci flag current initial⟩
  · intro initial inputs
    induction inputs with
    | nil => intro current; simp [runCycles, warnTotal]
    | cons ci rest ih =>
      intro current
      rw [runCycles]
      simp only [warnTotal, List.map_cons, List.sum_cons, List.any_cons]
      rw [runCycle_warnsOf, runCycle_flagAfter]
      by_cases hobs : obsPreempted ci = true
      · simp only [hobs]
        have := warnTotal_true initial rest (runCycle ci false current initial).nextWait
        simp only [warnTotal] at this
        simp [this]
      · simp only [Bool.eq_false_iff.mpr hobs]
        have := ih (runCycle ci false current initial).nextWait
        simp only [warnTotal] at this
        simp [this]

/-- Witness for claim C7 at a concrete preempted job and a two-cycle run that
observes the preemption twice but warns exactly once. -/
theorem claim_C7_witness :
    "p1" ∈ (classifyJobs [("p1", "PREEMPTED")] false ["p1"]).yielded ∧
    warnTotal (runCycles 40 [cexC7input, cexC7input] false 40) = 1 := by
  refine ⟨(claim_C7.1 [("p1", "PREEMPTED")] false ["p1"] "p1" (by decide) (by decide)).1, ?_⟩
  rw [claim_C7.2.2 40 [cexC7input, cexC7input] 40]
  decide

/-! ## Claim C9: the time parser -/

theorem dropWhile_eq_self_of_false (p : Char → Bool) (l : List Char)
    (h : ∀ c ∈ l, p c = false) : l.dropWhile p = l := by
  cases l with
  | nil => rfl
  | cons c cs =>
    rw [List.dropWhile_cons, h c (List.mem_cons_self c cs)]
    simp

theorem pyStrip_eq_self (l : List Char) (h : ∀ c ∈ l, isSpaceChar c = false) :
    pyStrip l = l := by
  unfold pyStrip
  rw [dropWhile_eq_self_of_false _ _ h,
    dropWhile_eq_self_of_false _ _ (fun c hc => h c (List.mem_reverse.mp hc)),
    List.reverse_reverse]

theorem digit_char_props (c : Char) (h : c ∈ digitChars) :
    isDigitChar c = true ∧ isSpaceChar c = false ∧ c ≠ '+' ∧ c ≠ '-' ∧
    c ≠ ':' ∧ c ≠ '.' := by
  fin_cases h <;> refine ⟨by decide, by decide, by decide, by decide, by decide, by decide⟩

theorem takeWhile_digits_append (hs ms : List Char) (x : Char)
    (hd : ∀ c ∈ hs, isDigitChar c = true) (hx : isDigitChar x = false) :
    (hs ++ x :: ms).takeWhile isDigitChar = hs ∧
    (hs ++ x :: ms).dropWhile isDigitChar = x :: ms := by
  induction hs with
  | nil => simp [List.takeWhile_cons, List.dropWhile_cons, hx]
  | cons c hs' ih =>
    have hc := hd c (List.mem_cons_self c hs')
    have ihh := ih (fun d hdm => hd d (List.mem_cons_of_mem c hdm))
    simp only [List.cons_append, List.takeWhile_cons, List.dropWhile_cons, hc]
    simp [ihh.1, ihh.2]

theorem pyFloatCore_digit_colon (sign : ℚ) (hs ms : List Char) (hhs : hs ≠ [])
    (hd : ∀ c ∈ hs, isDigitChar c = true) :
    pyFloatCore sign (hs ++ ':' :: ms) = none := by
  obtain ⟨hto, hdo⟩ := takeWhile_digits_append hs ms ':' hd (by decide)
  rw [pyFloatCore]
  rw [hdo]
  split
  next rest2 heq =>
    exact absurd (List.head_eq_of_cons_eq heq) (by decide)
  next rest1 heq =>
    rw [hto]
    rw [if_neg (by simpa using hhs)]
    have hexp : parseExpPart (':' :: ms) = none := by
      rw [parseExpPart, if_neg (by decide)]
    rw [hexp]

theorem pyFloatChars_digit_colon (hs ms : List Char) (hhs : hs ≠ [])
    (hd : ∀ c ∈ hs, c ∈ digitChars) :
    pyFloatChars (hs ++ ':' :: ms) = none := by
  obtain ⟨d, hs', rfl⟩ := List.exists_cons_of_ne_nil hhs
  have hdp := digit_char_props d (hd d (List.mem_cons_self d hs'))
  have hdigits : ∀ c ∈ d :: hs', isDigitChar c = true :=
    fun c hc => (digit_char_props c (hd c hc)).1
  rw [show (d :: hs') ++ ':' :: ms = d :: (hs' ++ ':' :: ms) from rfl, pyFloatChars]
  · exact pyFloatCore_digit_colon 1 (d :: hs') ms (by simp) hdigits
  · intro rest hrest
    exact hdp.2.2.1 (List.head_eq_of_cons_eq hrest)
  · intro rest hrest
    exact hdp.2.2.2.1 (List.head_eq_of_cons_eq hrest)

theorem pyIntChars_digits (l : List Char) (hne : l ≠ [])
    (hd : ∀ c ∈ l, c ∈ digitChars) :
    pyIntChars l = some ((digitsVal l : ℕ) : ℤ) := by
  obtain ⟨d, l', rfl⟩ := List.exists_cons_of_ne_nil hne
  have hdp := digit_char_props d (hd d (List.mem_cons_self d l'))
  have hstrip : pyStrip (d :: l') = d :: l' :=
    pyStrip_eq_self _ (fun c hc => (digit_char_props c (hd c hc)).2.1)
  have hall : (d :: l').all isDigitChar = true := by
    rw [List.all_eq_true]
    exact fun c hc => (digit_char_props c (hd c hc)).1
  rw [pyIntChars, hstrip]
  split
  next rest heq =>
    exact absurd (List.head_eq_of_cons_eq heq) hdp.2.2.1
  next rest heq =>
    exact absurd (List.head_eq_of_cons_eq heq) hdp.2.2.2.1
  next rest h1 h2 =>
    rw [if_pos (by simp [hall])]

theorem pySplit_not_mem (sep : Char) (l : List Char) (h : sep ∉ l) :
    pySplit sep l = [l] := by
  induction l with
  | nil => rfl
  | cons c cs ih =>
    have hc : ¬c = sep := fun hh => h (hh ▸ List.mem_cons_self c cs)
    rw [pySplit, if_neg hc, ih (fun hm => h (List.mem_cons_of_mem c hm))]

theorem pySplit_append (sep : Char) (hs ms : List Char) (h : sep ∉ hs) :
    pySplit sep (hs ++ sep :: ms) = hs :: pySplit sep ms := by
  induction hs with
  | nil =>
    show pySplit sep (sep :: ms) = [] :: pySplit sep ms
    rw [pySplit, if_pos rfl]
  | cons c hs' ih =>
    have hc : ¬c = sep := fun hh => h (hh ▸ List.mem_cons_self c hs')
    rw [List.cons_append, pySplit, if_neg hc, ih (fun hm => h (List.mem_cons_of_mem c hm))]

theorem contains_eq_false_of_not_mem (l : List Char) (a : Char) (h : a ∉ l) :
    l.contains a = false := by
  cases hc : l.contains a with
  | false => rfl
  | true => exact absurd (List.elem_iff.mp hc) h

theorem round_half_up_int (z : ℤ) : round_half_up ((z : ℚ)) = z := by
  rw [round_half_up, Int.floor_eq_iff]
  constructor <;> linarith

theorem unitMinutes_d (v : ℚ) : unitMinutes v 'd' = v * 24 * 60 := rfl

theorem unitMinutes_h (v : ℚ) : unitMinutes v 'h' = v * 60 := rfl

theorem unitMinutes_m (v : ℚ) : unitMinutes v 'm' = v := rfl

theorem parse_colon_hours_minutes (hs ms : List Char) (hhs : hs ≠ []) (hms : ms ≠ [])
    (hd : ∀ c ∈ hs, c ∈ digitChars) (hm : ∀ c ∈ ms, c ∈ digitChars) :
    parse_time_to_minutes (String.mk (hs ++ ':' :: ms)) =
      .ok (60 * (digitsVal hs : ℤ) + (digitsVal ms : ℤ)) := by
  have hnospace : ∀ c ∈ hs ++ ':' :: ms, isSpaceChar c = false := by
    intro c hc
    rcases List.mem_append.mp hc with h1 | h1
    · exact (digit_char_props c (hd c h1)).2.1
    · rcases List.mem_cons.mp h1 with rfl | h2
      · decide
      · exact (digit_char_props c (hm c h2)).2.1
  have hstrip : pyStrip (hs ++ ':' :: ms) = hs ++ ':' :: ms :=
    pyStrip_eq_self _ hnospace
  have hfloat : pyFloatChars (hs ++ ':' :: ms) = none :=
    pyFloatChars_digit_colon hs ms hhs hd
  have hnomem : '-' ∉ hs ++ ':' :: ms := by
    intro hcmem
    rcases List.mem_append.mp hcmem with h1 | h1
    · exact (digit_char_props _ (hd _ h1)).2.2.2.1 rfl
    · rcases List.mem_cons.mp h1 with heq | h2
      · exact absurd heq (by decide)
      · exact (digit_char_props _ (hm _ h2)).2.2.2.1 rfl
  have hdash : (hs ++ ':' :: ms).contains '-' = false :=
    contains_eq_false_of_not_mem _ '-' hnomem
  have hcolon : (hs ++ ':' :: ms).contains ':' = true :=
    List.elem_iff.mpr (List.mem_append_right hs (List.mem_cons_self ':' ms))
  have hnchs : ':' ∉ hs := fun hmem => (digit_char_props _ (hd _ hmem)).2.2.2.2.1 rfl
  have hncms : ':' ∉ ms := fun hmem => (digit_char_props _ (hm _ hmem)).2.2.2.2.1 rfl
  have hsplit : pySplit ':' (hs ++ ':' :: ms) = [hs, ms] := by
    rw [pySplit_append ':' hs ms hnchs, pySplit_not_mem ':' ms hncms]
  have hih : pyIntChars hs = some ((digitsVal hs : ℕ) : ℤ) := pyIntChars_digits hs hhs hd
  have him : pyIntChars ms = some ((digitsVal ms : ℕ) : ℤ) := pyIntChars_digits ms hms hm
  have hslurm : slurmStage (hs ++ ':' :: ms) =
      .ok ((((0 : ℤ) : ℚ)) * 24 * 60 + (((digitsVal hs : ℕ) : ℤ) : ℚ) * 60
        + (((digitsVal ms : ℕ) : ℤ) : ℚ)) := by
    simp only [slurmStage, hdash, Bool.false_eq_true, if_false, hsplit, hih, him]
  have hlist : (String.mk (hs ++ ':' :: ms)).toList = hs ++ ':' :: ms := rfl
  simp only [parse_time_to_minutes, hlist, hstrip, hfloat, hdash, hcolon, Bool.false_or,
    if_true, hslurm]
  have hval : (((0 : ℤ) : ℚ)) * 24 * 60 + (((digitsVal hs : ℕ) : ℤ) : ℚ) * 60
      + (((digitsVal ms : ℕ) : ℤ) : ℚ) =
      ((60 * (digitsVal hs : ℤ) + (digitsVal ms : ℤ) : ℤ) : ℚ) := by
    push_cast
    ring
  rw [hval, round_half_up_int]

/-- Claim C9: the time parser maps the canonical examples exactly, a two-field
colon value of digit strings is read as hours and minutes, and rounding is
round half up: an exact half rounds to the next integer and the result never
differs from the exact value by more than one half. -/
theorem claim_C9 :
    parse_time_to_minutes "120" = .ok 120 ∧
    parse_time_to_minutes "2h" = .ok 120 ∧
    parse_time_to_minutes "1d" = .ok 1440 ∧
    parse_time_to_minutes "2d12h30m" = .ok 3630 ∧
    parse_time_to_minutes "1-0:30" = .ok 1470 ∧
    (∀ (hs ms : List Char), hs ≠ [] → ms ≠ [] →
      (∀ c ∈ hs, c ∈ digitChars) → (∀ c ∈ ms, c ∈ digitChars) →
      parse_time_to_minutes (String.mk (hs ++ ':' :: ms)) =
        .ok (60 * (digitsVal hs : ℤ) + (digitsVal ms : ℤ))) ∧
    (∀ z : ℤ, round_half_up ((z : ℚ) + 1 / 2) = z + 1) ∧
    (∀ q : ℚ, |((round_half_up q : ℤ) : ℚ) - q| ≤ 1 / 2) := by
  refine ⟨?_, ?_, ?_, ?_, ?_, parse_colon_hours_minutes, ?_, ?_⟩
  · have h1 : pyStrip "120".toList = "120".toList := by decide
    have h2 : pyFloatChars "120".toList =
        some (1 * ((digitsVal ['1', '2', '0'] : ℕ) : ℚ) * (10 : ℚ) ^ (0 : ℤ)) := rfl
    have hd : digitsVal ['1', '2', '0'] = 120 := by decide
    simp only [parse_time_to_minutes, h1, h2, hd]
    norm_num [round_half_up]
  · have h1 : pyStrip "2h".toList = "2h".toList := by decide
    have h2 : pyFloatChars "2h".toList = none := by decide
    have h3 : ("2h".toList.contains '-' || "2h".toList.contains ':') = false := by decide
    have h4 : findMatchesAux "2h".toList.length (List.map pyLowerChar "2h".toList) =
        [(((digitsVal ['2'] : ℕ) : ℚ), 'h')] := rfl
    have hd : digitsVal ['2'] = 2 := by decide
    simp only [parse_time_to_minutes, h1, h2, h3, Bool.false_eq_true, if_false, h4, hd,
      List.isEmpty_cons, List.foldl_cons, List.foldl_nil, unitMinutes_h]
    norm_num [round_half_up]
  · have h1 : pyStrip "1d".toList = "1d".toList := by decide
    have h2 : pyFloatChars "1d".toList = none := by decide
    have h3 : ("1d".toList.contains '-' || "1d".toList.contains ':') = false := by decide
    have h4 : findMatchesAux "1d".toList.length (List.map pyLowerChar "1d".toList) =
        [(((digitsVal ['1'] : ℕ) : ℚ), 'd')] := rfl
    have hd : digitsVal ['1'] = 1 := by decide
    simp only [parse_time_to_minutes, h1, h2, h3, Bool.false_eq_true, if_false, h4, hd,
      List.isEmpty_cons, List.foldl_cons, List.foldl_nil, unitMinutes_d]
    norm_num [round_half_up]
  · have h1 : pyStrip "2d12h30m".toList = "2d12h30m".toList := by decide
    have h2 : pyFloatChars "2d12h30m".toList = none := by decide
    have h3 : ("2d12h30m".toList.contains '-' || "2d12h30m".toList.contains ':') = false := by
      decide
    have h4 : findMatchesAux "2d12h30m".toList.length
        (List.map pyLowerChar "2d12h30m".toList) =
        [(((digitsVal ['2'] : ℕ) : ℚ), 'd'), (((digitsVal ['1', '2'] : ℕ) : ℚ), 'h'),
         (((digitsVal ['3', '0'] : ℕ) : ℚ), 'm')] := rfl
    have hda : digitsVal ['2'] = 2 := by decide
    have hdb : digitsVal ['1', '2'] = 12 := by decide
    have hdc : digitsVal ['3', '0'] = 30 := by decide
    simp only [parse_time_to_minutes, h1, h2, h3, Bool.false_eq_true, if_false, h4,
      hda, hdb, hdc, List.isEmpty_cons, List.foldl_cons, List.foldl_nil,
      unitMinutes_d, unitMinutes_h, unitMinutes_m]
    norm_num [round_half_up]
  · have h1 : pyStrip "1-0:30".toList = "1-0:30".toList := by decide
    have h2 : pyFloatChars "1-0:30".toList = none := by decide
    have h3 : ("1-0:30".toList.contains '-' || "1-0:30".toList.contains ':') = true := by
      decide
    have h4 : slurmStage "1-0:30".toList =
        .ok (((((digitsVal ['1'] : ℕ) : ℤ)) : ℚ) * 24 * 60
          + ((((digitsVal ['0'] : ℕ) : ℤ)) : ℚ) * 60
          + ((((digitsVal ['3', '0'] : ℕ) : ℤ)) : ℚ)) := rfl
    have hda : digitsVal ['1'] = 1 := by decide
    have hdb : digitsVal ['0'] = 0 := by decide
    have hdc : digitsVal ['3', '0'] = 30 := by decide
    simp only [parse_time_to_minutes, h1, h2, h3, if_true, h4, hda, hdb, hdc]
    norm_num [round_half_up]
  · intro z
    rw [round_half_up, Int.floor_eq_iff]
    constructor <;> push_cast <;> linarith
  · intro q
    rw [abs_le, round_half_up]
    constructor
    · have := Int.lt_floor_add_one (q + 1 / 2)
      linarith
    · have := Int.floor_le (q + 1 / 2)
      linarith

/-- Witness for claim C9: the general two-field colon statement applied to the
concrete digit strings of 60:30. -/
theorem claim_C9_witness :
    parse_time_to_minutes (String.mk (['6', '0'] ++ ':' :: ['3', '0'])) = .ok 3630 := by
  have h := claim_C9.2.2.2.2.2.1 ['6', '0'] ['3', '0'] (by decide) (by decide)
    (by decide) (by decide)
  rw [h]
  decide

end SlurmExec
